import Mathlib

/-!
Verification of the meeting_ai backend job pipeline.

The definitions in this file are shallow embeddings of the Python modules
under `src/backend/src/meetingai_backend/`:

* `media/chunking.py` (audio chunk splitting),
* `media/assets.py` (media-asset manifest writer),
* `transcription/openai.py` (retry/backoff transcription driver),
* `transcription/segments.py` (transcript assembler),
* `tasks/transcribe.py` (transcribe stage orchestration),
* `summarization/openai.py` (summary/action-item parsing),
* `routers/jobs.py` (job state reader),
* `worker.py` (broker failure hook),
* `job_state.py` (failure-marker records).

Machine floats in the source are modelled by exact rationals (`ℚ`);
Python's `round` (banker's rounding, half to even) is modelled by `pyRound`.
Python `uuid.uuid4` identifier supplies are modelled by explicit
generator arguments or constants, since no claim concerns identifier values.
-/

/-- Python's built-in `round` on a rational: nearest integer, ties to even. -/
def pyRound (q : ℚ) : ℤ :=
  let f : ℤ := ⌊q⌋
  let r : ℚ := q - f
  if r < 1/2 then f
  else if r > 1/2 then f + 1
  else if Even f then f else f + 1

/-- Interpret a list of characters as a base-10 natural number
(`none` when empty or containing a non-digit). -/
def digitsToNat : List Char → Option ℕ
  | [] => none
  | cs =>
    cs.foldl
      (fun acc c =>
        match acc with
        | none => none
        | some n => if c.isDigit then some (n * 10 + (c.toNat - '0'.toNat)) else none)
      (some 0)

/-- Parse an optional leading sign, returning the sign and remaining characters. -/
def splitSign : List Char → Bool × List Char
  | '-' :: rest => (true, rest)
  | '+' :: rest => (false, rest)
  | cs => (false, cs)

/-- Parse the mantissa `digits[.digits]` (at least one digit overall) as a rational. -/
def parseMantissa (cs : List Char) : Option ℚ :=
  match cs.splitOn '.' with
  | [intPart] =>
    (digitsToNat intPart).map (fun n => (n : ℚ))
  | [intPart, fracPart] =>
    if intPart.isEmpty && fracPart.isEmpty then none
    else
      let ip : Option ℕ := if intPart.isEmpty then some 0 else digitsToNat intPart
      let fp : Option ℕ := if fracPart.isEmpty then some 0 else digitsToNat fracPart
      match ip, fp with
      | some i, some f => some ((i : ℚ) + (f : ℚ) / ((10 : ℚ) ^ fracPart.length))
      | _, _ => none
  | _ => none

/-- Whitespace predicate used by Python `str.strip()` (modelled by Lean's
`Char.isWhitespace`). -/
def pyIsSpace (c : Char) : Bool := c.isWhitespace

/-- Python `str.strip()` on a character list: drop leading and trailing
whitespace. -/
def pyStripList (l : List Char) : List Char :=
  ((l.dropWhile pyIsSpace).reverse.dropWhile pyIsSpace).reverse

/-- Model of Python `float(str)` for plain decimal literals
(optional sign, decimal point, exponent). Special values such as
`inf`/`nan` and underscore separators are not representable in `ℚ`
and yield `none`. -/
def parseDecimal (s : String) : Option ℚ :=
  let cs := pyStripList s.data
  let lowered := cs.map Char.toLower
  let parts := lowered.splitOn 'e'
  match parts with
  | [mant] =>
    let (neg, body) := splitSign mant
    (parseMantissa body).map (fun q => if neg then -q else q)
  | [mant, expo] =>
    let (neg, body) := splitSign mant
    let (eneg, ebody) := splitSign expo
    match parseMantissa body, digitsToNat ebody with
    | some q, some e =>
      let base := if neg then -q else q
      some (if eneg then base / (10 : ℚ) ^ e else base * (10 : ℚ) ^ e)
    | _, _ => none
  | _ => none

/-- JSON-like values as decoded by Python's `json.loads` / `response.json()`.
Numbers are modelled as exact rationals. -/
inductive JValue where
  | null
  | bool (b : Bool)
  | num (q : ℚ)
  | str (s : String)
  | arr (xs : List JValue)
  | obj (fields : List (String × JValue))

/-- Dictionary lookup (`entry["key"]` / `"key" in entry`): first matching key. -/
def JValue.get? : JValue → String → Option JValue
  | .obj fields, key => (fields.find? (fun p => p.1 = key)).map Prod.snd
  | _, _ => none

/-- Python truthiness of a decoded JSON value (`if value:`). -/
def JValue.truthy : JValue → Bool
  | .null => false
  | .bool b => b
  | .num q => q ≠ 0
  | .str s => s ≠ ""
  | .arr xs => !xs.isEmpty
  | .obj fields => !fields.isEmpty

/-- `a or b` on optional strings with Python truthiness (empty string is falsy). -/
def pyOrStr (a b : Option String) : Option String :=
  match a with
  | some s => if s = "" then b else some s
  | none => b

/-- Truthiness of an optional string (`if language:`). -/
def optTruthy : Option String → Bool
  | some s => s ≠ ""
  | none => false

/-- Python `str.strip()`. -/
def pyStrip (s : String) : String := ⟨pyStripList s.data⟩

/-- Python `str.endswith` (suffix test on characters). -/
def strEndsWith (s suffix : String) : Bool :=
  suffix.data.isSuffixOf s.data

/-- Drop the last `n` characters (`s[:-n]` for positive `n`). -/
def strDropRight (s : String) (n : ℕ) : String :=
  ⟨s.data.take (s.data.length - n)⟩

/-- Python `str.lower()` (ASCII-adequate model). -/
def strToLower (s : String) : String := ⟨s.data.map Char.toLower⟩

/-- Lexicographic code-point comparison of character lists, as Python
compares strings with `<`. -/
def charListLT : List Char → List Char → Bool
  | [], [] => false
  | [], _ :: _ => true
  | _ :: _, [] => false
  | a :: as, b :: bs =>
    if a < b then true else if b < a then false else charListLT as bs

/-- Python string `<`. -/
def strLT (a b : String) : Bool := charListLT a.data b.data

/-- Stable insertion of `x` into `l` before the first element that `x`
is strictly below. -/
def pySortInsert {α : Type} (lt : α → α → Bool) (x : α) : List α → List α
  | [] => [x]
  | y :: ys => if lt x y then x :: y :: ys else y :: pySortInsert lt x ys

/-- Python `sorted` with a strict `<` on keys, modelled as a stable
insertion sort (elements are taken left to right, each inserted after
every element it is not strictly below). -/
def pySorted {α : Type} (lt : α → α → Bool) (l : List α) : List α :=
  l.foldl (fun acc x => pySortInsert lt x acc) []

/-! ## Summarization driver (`summarization/openai.py`, `summarization/models.py`) -/

/-- Approximate rendering of a JSON scalar by Python `str(...)`.
Claims in this development never depend on the rendered text of non-string
values, only on whether an entry is kept. -/
def pyStr : JValue → String
  | .str s => s
  | .num q => if q.den = 1 then toString q.num else toString q
  | .bool b => if b then "True" else "False"
  | .null => "None"
  | .arr _ => "<list>"
  | .obj _ => "<dict>"

/-- `_coerce_milliseconds` from `summarization/openai.py`: best-effort
conversion of a timestamp value to integer milliseconds.  Python `bool`
is an `int` instance, so booleans coerce to 0/1; floats are floored;
strings may carry an `ms`/`s` suffix. -/
def coerceMilliseconds : JValue → Option ℤ
  | .null => none
  | .bool b => some (if b then 1 else 0)
  | .num q => some ⌊q⌋
  | .str s =>
    let stripped := strToLower (pyStrip s)
    if stripped = "" then none
    else
      let stripped := if strEndsWith stripped "ms" then strDropRight stripped 2 else stripped
      let (stripped, multiplier) :=
        if strEndsWith stripped "s" then (strDropRight stripped 1, (1000 : ℚ)) else (stripped, 1)
      match parseDecimal stripped with
      | none => none
      | some numeric => some ⌊numeric * multiplier⌋
  | .arr _ => none
  | .obj _ => none

/-- `_extract_time_value`: first key that is present *and* coerces to a
number wins; keys that are present but fail to coerce are skipped. -/
def extractTimeValue (entry : JValue) (keys : List String) : Option ℤ :=
  keys.findSome? (fun key => (entry.get? key).bind coerceMilliseconds)

/-- `SummaryItem` from `summarization/models.py` (the `summary_id` produced
by `uuid4` is modelled as the empty string; no claim concerns it). -/
structure SummaryItem where
  summary_id : String
  job_id : String
  order : ℕ
  segment_start_ms : ℤ
  segment_end_ms : ℤ
  summary_text : String
  heading : Option String
  priority : Option String
  highlights : List String

/-- `ActionItem` from `summarization/models.py`. -/
structure ActionItem where
  action_id : String
  job_id : String
  order : ℕ
  description : String
  owner : Option String
  due_date : Option String
  segment_start_ms : Option ℤ
  segment_end_ms : Option ℤ
  priority : Option String

/-- One iteration of the `for index, entry in enumerate(sections)` loop of
`_parse_summary_sections`; `parsed` accumulates accepted items and the
appended item's `order` is `len(parsed)` at append time. -/
def summarySectionStep (jobId : String) (tStart tEnd : ℤ)
    (parsed : List SummaryItem) (entry : JValue) : List SummaryItem :=
  match entry with
  | .obj _ =>
    let summaryText? : Option JValue :=
      match entry.get? "summary" with
      | some v => some v
      | none => entry.get? "text"
    match summaryText? with
    | some (.str summaryText) =>
      if pyStrip summaryText = "" then parsed
      else
        match extractTimeValue entry ["start_ms", "start", "segment_start_ms", "segment_start"],
              extractTimeValue entry ["end_ms", "end", "segment_end_ms", "segment_end"] with
        | some startMs, some endMs =>
          if endMs ≤ startMs then parsed
          else
            let clampedStart := max startMs tStart
            let clampedEnd := min endMs tEnd
            if clampedEnd ≤ clampedStart then parsed
            else
              let highlights :=
                match entry.get? "highlights" with
                | some (.arr xs) =>
                  xs.filterMap (fun item =>
                    match item with
                    | .str s => some s
                    | .num q => some (pyStr (.num q))
                    | .bool b => some (pyStr (.bool b))
                    | _ => none)
                | _ => []
              let title :=
                match entry.get? "title" with
                | some v => if v.truthy then some (pyStr v) else none
                | none => none
              let priority :=
                match entry.get? "priority" with
                | some v => if v.truthy then some (pyStr v) else none
                | none => none
              parsed ++ [{ summary_id := ""
                           job_id := jobId
                           order := parsed.length
                           segment_start_ms := clampedStart
                           segment_end_ms := clampedEnd
                           summary_text := pyStrip summaryText
                           heading := title
                           priority := priority
                           highlights := highlights }]
        | _, _ => parsed
    | _ => parsed
  | _ => parsed

/-- `_parse_summary_sections`: non-sequence input yields no items (a string
input iterates characters, none of which is a mapping, so it also yields
no items). -/
def parseSummarySections (sections : JValue) (jobId : String)
    (tStart tEnd : ℤ) : List SummaryItem :=
  match sections with
  | .arr entries => entries.foldl (summarySectionStep jobId tStart tEnd) []
  | _ => []

/-- One iteration of the `_parse_action_items` loop; the appended item's
`order` is `starting_order + len(parsed)` at append time. -/
def actionItemStep (jobId : String) (startingOrder : ℕ) (tStart tEnd : ℤ)
    (parsed : List ActionItem) (entry : JValue) : List ActionItem :=
  match entry with
  | .obj _ =>
    let description? : Option JValue :=
      match entry.get? "description" with
      | some v => some v
      | none => entry.get? "text"
    match description? with
    | some (.str description) =>
      if pyStrip description = "" then parsed
      else
        let segmentStart0 :=
          extractTimeValue entry ["start_ms", "start", "segment_start_ms", "segment_start"]
        let segmentEnd0 :=
          extractTimeValue entry ["end_ms", "end", "segment_end_ms", "segment_end"]
        let segmentStart := segmentStart0.map (fun s => max s tStart)
        let segmentEnd := segmentEnd0.map (fun e => min e tEnd)
        match segmentStart, segmentEnd with
        | some s, some e =>
          if e ≤ s then parsed
          else
            parsed ++ [{ action_id := ""
                         job_id := jobId
                         order := startingOrder + parsed.length
                         description := pyStrip description
                         owner := (entry.get? "owner").bind
                           (fun v => if v.truthy then some (pyStr v) else none)
                         due_date := (entry.get? "due_date").bind
                           (fun v => if v.truthy then some (pyStr v) else none)
                         segment_start_ms := some s
                         segment_end_ms := some e
                         priority := (entry.get? "priority").bind
                           (fun v => if v.truthy then some (pyStr v) else none) }]
        | s?, e? =>
          parsed ++ [{ action_id := ""
                       job_id := jobId
                       order := startingOrder + parsed.length
                       description := pyStrip description
                       owner := (entry.get? "owner").bind
                         (fun v => if v.truthy then some (pyStr v) else none)
                       due_date := (entry.get? "due_date").bind
                         (fun v => if v.truthy then some (pyStr v) else none)
                       segment_start_ms := s?
                       segment_end_ms := e?
                       priority := (entry.get? "priority").bind
                         (fun v => if v.truthy then some (pyStr v) else none) }]
    | _ => parsed
  | _ => parsed

/-- `_parse_action_items`. -/
def parseActionItems (items : JValue) (jobId : String) (startingOrder : ℕ)
    (tStart tEnd : ℤ) : List ActionItem :=
  match items with
  | .arr entries => entries.foldl (actionItemStep jobId startingOrder tStart tEnd) []
  | _ => []

/-- The parsing composition inside `generate_meeting_summary` (lines
167-179): action items are parsed with `starting_order` equal to the
number of accepted summary items. -/
def parseSummaryBundle (jobId : String) (tStart tEnd : ℤ)
    (sectionsRaw itemsRaw : JValue) : List SummaryItem × List ActionItem :=
  let summaryItems := parseSummarySections sectionsRaw jobId tStart tEnd
  let actionItems := parseActionItems itemsRaw jobId summaryItems.length tStart tEnd
  (summaryItems, actionItems)

/-! ## Media assets and audio chunking (`media/assets.py`, `media/chunking.py`) -/

/-- `MediaAsset` from `media/assets.py` (file paths are modelled as
strings; `extra` as a JSON object body). -/
structure MediaAssetM where
  asset_id : String
  job_id : String
  kind : String
  path : String
  order : ℤ
  duration_ms : ℤ
  start_ms : ℤ
  end_ms : ℤ
  sample_rate : Option ℤ
  channels : Option ℤ
  bit_depth : Option ℤ
  parent_asset_id : Option String
  extra : List (String × JValue)

/-- Zero-pad a natural number to four digits (`f"{index:04d}"`). -/
def pad4 (n : ℕ) : String :=
  let s := toString n
  if s.length < 4 then String.mk (List.replicate (4 - s.length) '0') ++ s else s

/-- Chunk file name produced by `split_audio_into_chunks`
(`f"{source.stem}_chunk_{index:04d}.mp3"`): chunks are always MP3 files. -/
def chunkFileName (stem : String) (index : ℕ) : String :=
  stem ++ "_chunk_" ++ pad4 index ++ ".mp3"

/-- The `while position_seconds < total_duration` loop of
`split_audio_into_chunks`, with an explicit fuel bound (shown sufficient
in `splitLoop_some`).  `ids` models the `uuid4` supply for
`MediaAsset.create_id`. -/
def splitLoop (jobId : String) (ids : ℕ → String) (stem : String)
    (d : ℤ) (total : ℚ) (parentId : Option String)
    (sampleRate channels : ℤ) :
    ℕ → ℚ → ℕ → List MediaAssetM → Option (List MediaAssetM)
  | 0, pos, _, acc => if pos < total then none else some acc.reverse
  | fuel + 1, pos, index, acc =>
    if pos < total then
      let remaining := total - pos
      let chunkLength := min (d : ℚ) remaining
      let startMs := pyRound (pos * 1000)
      let durationMs := pyRound (chunkLength * 1000)
      let endMs := startMs + durationMs
      let asset : MediaAssetM :=
        { asset_id := ids index
          job_id := jobId
          kind := "audio_chunk"
          path := chunkFileName stem index
          order := (index : ℤ)
          duration_ms := durationMs
          start_ms := startMs
          end_ms := endMs
          sample_rate := some sampleRate
          channels := some channels
          bit_depth := none
          parent_asset_id := parentId
          extra := [] }
      splitLoop jobId ids stem d total parentId sampleRate channels
        fuel (pos + chunkLength) (index + 1) (asset :: acc)
    else some acc.reverse

/-- `split_audio_into_chunks` from `media/chunking.py`.  The subprocess
cutting of each chunk file is external I/O; the probed `total` duration
(a positive number of seconds) and the chunk duration argument determine
the emitted manifest entries.  The filesystem existence check on the
source file is part of the environment and not modelled. -/
def splitAudioIntoChunks (jobId : String) (ids : ℕ → String) (stem : String)
    (chunkDurationSeconds : ℤ) (totalDuration : ℚ) (parentId : Option String)
    (sampleRate channels : ℤ) : Except String (List MediaAssetM) :=
  if chunkDurationSeconds ≤ 0 then
    .error "chunk_duration_seconds must be greater than zero."
  else if totalDuration ≤ 0 then
    .error "ffprobe reported non-positive duration"
  else
    let fuel := (⌈totalDuration / (chunkDurationSeconds : ℚ)⌉).toNat + 1
    match splitLoop jobId ids stem chunkDurationSeconds totalDuration parentId
        sampleRate channels fuel 0 0 [] with
    | none => .error "loop fuel exhausted (unreachable: see splitLoop_some)"
    | some [] => .error "audio file contains no audio data; cannot create chunks."
    | some assets => .ok assets

/-- `_build_master_asset` from `tasks/ingest.py`: duration is the sum of
chunk durations, `end_ms` is the last chunk's `end_ms`, order is −1.
The source indexes `chunk_assets[0]` / `chunk_assets[-1]` directly and is
only called with a non-empty list; defaults here cover the empty case. -/
def buildMasterAsset (jobId masterId audioPath sourcePath : String)
    (chunkAssets : List MediaAssetM) : MediaAssetM :=
  { asset_id := masterId
    job_id := jobId
    kind := "audio_master"
    path := audioPath
    order := -1
    duration_ms := (chunkAssets.map (·.duration_ms)).sum
    start_ms := 0
    end_ms := ((chunkAssets.getLast?).map (·.end_ms)).getD 0
    sample_rate := ((chunkAssets.head?).map (·.sample_rate)).getD none
    channels := ((chunkAssets.head?).map (·.channels)).getD none
    bit_depth := ((chunkAssets.head?).map (·.bit_depth)).getD none
    parent_asset_id := none
    extra := [("source_file_path", .str sourcePath)] }

/-- The manifest assembly of `process_uploaded_video` (lines 82-95):
build the master from the chunk assets, then point every chunk's
`parent_asset_id` at the master. -/
def assembleManifest (jobId masterId audioPath sourcePath : String)
    (chunkAssets : List MediaAssetM) : MediaAssetM × List MediaAssetM :=
  let master := buildMasterAsset jobId masterId audioPath sourcePath chunkAssets
  (master, chunkAssets.map (fun c => { c with parent_asset_id := some master.asset_id }))

/-! ## Transcription driver (`transcription/openai.py`) -/

/-- `ChunkTranscriptionResult` from `transcription/openai.py`. -/
structure ChunkTranscriptionResult where
  asset_id : String
  text : String
  start_ms : ℤ
  end_ms : ℤ
  duration_ms : ℤ
  language : Option String
  response : JValue

/-- The retry-relevant fields of `OpenAITranscriptionConfig`. -/
structure TranscriptionConfig where
  maxAttempts : ℕ
  retryBackoffSeconds : ℚ
  maxRetryBackoffSeconds : Option ℚ
  requestsPerMinute : Option ℚ

/-- `__post_init__` validation of `OpenAITranscriptionConfig`
(the API-key check is omitted; keys are environment data). -/
def transcriptionConfigValid (cfg : TranscriptionConfig) : Bool :=
  decide (1 ≤ cfg.maxAttempts) && decide (0 < cfg.retryBackoffSeconds) &&
    (match cfg.maxRetryBackoffSeconds with
     | some cap => decide (0 < cap)
     | none => true)

/-- `_RETRIABLE_STATUS`. -/
def retriableStatus : List ℤ := [408, 409, 429, 500, 502, 503, 504]

/-- `_parse_retry_after_seconds`: numeric header values parse directly
(negative values are discarded); HTTP-date values depend on the wall
clock and are modelled by the `dateDelta` oracle
(`_parse_retry_after_date`). -/
def parseRetryAfterSeconds (dateDelta : String → Option ℚ) :
    Option String → Option ℚ
  | none => none
  | some raw =>
    let value := pyStrip raw
    match parseDecimal value with
    | some seconds => if seconds < 0 then none else some seconds
    | none => dateDelta value

/-- `_select_retry_delay`: exponential backoff base, raised to
`Retry-After` when present, capped by `max_retry_backoff_seconds`.
`response` is `none` for network errors (no response object) and
`some header` for an HTTP error response carrying an optional
`Retry-After` header. -/
def selectRetryDelay (cfg : TranscriptionConfig) (dateDelta : String → Option ℚ)
    (attempt : ℕ) (response : Option (Option String)) : ℚ :=
  let baseDelay := cfg.retryBackoffSeconds * 2 ^ (attempt - 1)
  let retryAfter :=
    match response with
    | some header => parseRetryAfterSeconds dateDelta header
    | none => none
  let delay :=
    match retryAfter with
    | some ra => max baseDelay ra
    | none => baseDelay
  match cfg.maxRetryBackoffSeconds with
  | some cap => min delay cap
  | none => delay

/-- `_RateLimiter` state. -/
structure RateLimiterState where
  minIntervalSeconds : ℚ
  lastRequestAt : Option ℚ

/-- `_RateLimiter.from_config`: `requests_per_minute` absent or
non-positive disables pacing, else the interval is `60/rpm`. -/
def rateLimiterFromConfig (cfg : TranscriptionConfig) : RateLimiterState :=
  { minIntervalSeconds :=
      match cfg.requestsPerMinute with
      | none => 0
      | some rpm => if rpm ≤ 0 then 0 else 60 / rpm
    lastRequestAt := none }

/-- `_RateLimiter.acquire`, with `time.monotonic` modelled by the `clock`
oracle indexed by a call counter.  Returns the sleep durations performed,
the new limiter state, and the new clock index. -/
def rateLimiterAcquire (clock : ℕ → ℚ) (clockIdx : ℕ) (st : RateLimiterState) :
    List ℚ × RateLimiterState × ℕ :=
  if st.minIntervalSeconds ≤ 0 then ([], st, clockIdx)
  else
    let current := clock clockIdx
    match st.lastRequestAt with
    | none => ([], { st with lastRequestAt := some current }, clockIdx + 1)
    | some last =>
      let elapsed := current - last
      let remaining := st.minIntervalSeconds - elapsed
      if 0 < remaining then
        let current' := clock (clockIdx + 1)
        ([remaining], { st with lastRequestAt := some current' }, clockIdx + 2)
      else ([], { st with lastRequestAt := some current }, clockIdx + 1)

/-- Outcome of one attempt of the per-chunk request in
`transcribe_audio_chunks`: a parsed payload, an `httpx.HTTPStatusError`
with status and optional `Retry-After` header, or an
`httpx.RequestError`. -/
inductive AttemptOutcome where
  | success (payload : JValue)
  | httpStatusError (status : Option ℤ) (retryAfter : Option String)
  | networkError

/-- Errors raised by the transcription driver (`TranscriptionError`
variants). -/
inductive TranscriptionFailure where
  | httpFailure (status : Option ℤ)
  | networkFailure
  | emptyTranscription
  | exhausted

/-- Successful exit of the retry loop: the winning attempt's payload,
its 1-based attempt number, and all sleeps performed (rate-limiter plus
retry backoff, in order). -/
structure RetryRunResult where
  payload : JValue
  attempt : ℕ
  sleeps : List ℚ

/-- The `while attempt < config.max_attempts` retry loop of
`transcribe_audio_chunks` for a single chunk.  `outcomes n` is the result
of the n-th (1-based) request attempt.  Recursion is driven by `fuel`,
which stands for `max_attempts - attempt` (established at the entry
point `runRetryLoop`); the `fuel = 0` arm is the loop's `else` clause,
reached when all attempts are spent. -/
def attemptLoop (cfg : TranscriptionConfig) (dateDelta : String → Option ℚ)
    (outcomes : ℕ → AttemptOutcome) (clock : ℕ → ℚ) :
    ℕ → ℕ → RateLimiterState → ℕ → List ℚ →
    Except TranscriptionFailure RetryRunResult
  | 0, _, _, _, _ => .error .exhausted
  | fuel + 1, attempt, limiter, clockIdx, sleeps =>
    let attempt' := attempt + 1
    let (rateSleeps, limiter', clockIdx') := rateLimiterAcquire clock clockIdx limiter
    let sleeps := sleeps ++ rateSleeps
    match outcomes attempt' with
    | .success payload => .ok ⟨payload, attempt', sleeps⟩
    | .httpStatusError status retryAfter =>
      if (match status with
          | some s => decide (s ∈ retriableStatus)
          | none => false)
          && decide (attempt' < cfg.maxAttempts) then
        let delay := selectRetryDelay cfg dateDelta attempt' (some retryAfter)
        attemptLoop cfg dateDelta outcomes clock fuel attempt' limiter' clockIdx'
          (sleeps ++ [delay])
      else .error (.httpFailure status)
    | .networkError =>
      if attempt' < cfg.maxAttempts then
        let delay := selectRetryDelay cfg dateDelta attempt' none
        attemptLoop cfg dateDelta outcomes clock fuel attempt' limiter' clockIdx'
          (sleeps ++ [delay])
      else .error .networkFailure

/-- Entry into the retry loop: `attempt = 0`, fresh rate limiter, no
sleeps yet. -/
def runRetryLoop (cfg : TranscriptionConfig) (dateDelta : String → Option ℚ)
    (outcomes : ℕ → AttemptOutcome) (clock : ℕ → ℚ) :
    Except TranscriptionFailure RetryRunResult :=
  attemptLoop cfg dateDelta outcomes clock cfg.maxAttempts 0
    (rateLimiterFromConfig cfg) 0 []

/-- `_extract_transcript_text`: prefer a string `text` field, else join
the string `text` fields of a `segments` list with spaces; `none` models
the `TranscriptionError` raised when both are missing. -/
def extractTranscriptText (payload : JValue) : Option String :=
  match payload.get? "text" with
  | some (.str t) => some t
  | _ =>
    match payload.get? "segments" with
    | some (.arr entries) =>
      let collected := entries.filterMap (fun e =>
        match e with
        | .obj _ =>
          match e.get? "text" with
          | some (.str t) => some t
          | _ => none
        | _ => none)
      if collected.isEmpty then none else some (String.intercalate " " collected)
    | _ => none

/-- `_extract_language`: a string `language` field, else
`metadata.language`. -/
def extractLanguage (payload : JValue) : Option String :=
  match payload.get? "language" with
  | some (.str l) => some l
  | _ =>
    match payload.get? "metadata" with
    | some (.obj metaFields) =>
      match (JValue.obj metaFields).get? "language" with
      | some (.str l) => some l
      | _ => none
    | _ => none

/-- The body of `transcribe_audio_chunks` for a single chunk asset: run
the retry loop, then normalize the payload into a
`ChunkTranscriptionResult` (detected language falls back to the caller's
hint).  Also returns the sleeps performed. -/
def transcribeSingleChunk (asset : MediaAssetM) (cfg : TranscriptionConfig)
    (languageHint : Option String) (dateDelta : String → Option ℚ)
    (outcomes : ℕ → AttemptOutcome) (clock : ℕ → ℚ) :
    Except TranscriptionFailure (ChunkTranscriptionResult × List ℚ) :=
  match runRetryLoop cfg dateDelta outcomes clock with
  | .error e => .error e
  | .ok r =>
    match extractTranscriptText r.payload with
    | none => .error .emptyTranscription
    | some text =>
      .ok ({ asset_id := asset.asset_id
             text := text
             start_ms := asset.start_ms
             end_ms := asset.end_ms
             duration_ms := asset.duration_ms
             language := pyOrStr (extractLanguage r.payload) languageHint
             response := r.payload }, r.sleeps)

/-! ## Transcript assembler (`transcription/segments.py`) -/

/-- `TranscriptSegment` from `transcription/segments.py` (the `uuid4`
`segment_id` is modelled as the empty string). -/
structure TranscriptSegment where
  segment_id : String
  job_id : String
  order : ℕ
  start_ms : ℤ
  end_ms : ℤ
  text : String
  language : Option String
  speaker_label : Option String
  source_asset_id : Option String
  extra : List (String × JValue)

/-- `_parse_seconds`: numbers pass through (Python `bool` is an `int`
instance), strings are parsed as floats, everything else is `None`. -/
def parseSeconds : JValue → Option ℚ
  | .num q => some q
  | .bool b => some (if b then 1 else 0)
  | .str s => parseDecimal s
  | _ => none

/-- `_seconds_to_milliseconds`: `int(round(value * 1000))`.  The NaN and
infinity guards of the source are unrepresentable in `ℚ`. -/
def secondsToMilliseconds (value : ℚ) : ℤ := pyRound (value * 1000)

/-- Keys recognized by `_extract_segment_extra`; everything else is
collected as `extra`. -/
def segmentKnownKeys : List String :=
  ["id", "text", "start", "end", "temperature", "avg_logprob",
   "compression_ratio", "no_speech_prob", "speaker", "speaker_label", "language"]

/-- `_extract_segment_extra`. -/
def extractSegmentExtra (fields : List (String × JValue)) : List (String × JValue) :=
  fields.filter (fun p => !(segmentKnownKeys.contains p.1))

/-- A candidate segment yielded by `_iter_candidate_segments`. -/
structure CandidateSegment where
  text : String
  start_ms : ℤ
  end_ms : ℤ
  language : Option String
  speaker_label : Option String
  extra : List (String × JValue)

/-- One raw entry of the `segments` array: yields a candidate iff it is
a mapping with a string `text` and parseable `start` and `end`
timestamps (absolute milliseconds are chunk-relative seconds offset by
the chunk's `start_ms`). -/
def candidateOfRaw (chunk : ChunkTranscriptionResult) (raw : JValue) :
    Option CandidateSegment :=
  match raw with
  | .obj fields =>
    match raw.get? "text" with
    | some (.str text) =>
      match (raw.get? "start").bind parseSeconds, (raw.get? "end").bind parseSeconds with
      | some startSeconds, some endSeconds =>
        some { text := text
               start_ms := chunk.start_ms + secondsToMilliseconds startSeconds
               end_ms := chunk.start_ms + secondsToMilliseconds endSeconds
               language :=
                 match raw.get? "language" with
                 | some (.str l) => some l
                 | _ => none
               speaker_label :=
                 match raw.get? "speaker_label" with
                 | some (.str sp) => some sp
                 | _ =>
                   match raw.get? "speaker" with
                   | some (.str sp) => some sp
                   | _ => none
               extra := extractSegmentExtra fields }
      | _, _ => none
    | _ => none
  | _ => none

/-- The `RuntimeError`s raised by `_iter_candidate_segments`, each naming
the offending asset and its chunk window in milliseconds. -/
inductive MergeError where
  | missingSegments (assetId : String) (chunkStartMs chunkEndMs : ℤ)
  | noValidSegments (assetId : String) (chunkStartMs chunkEndMs : ℤ)

/-- The asset named by a merge error. -/
def MergeError.assetId : MergeError → String
  | .missingSegments a _ _ => a
  | .noValidSegments a _ _ => a

/-- The chunk window named by a merge error. -/
def MergeError.window : MergeError → ℤ × ℤ
  | .missingSegments _ s e => (s, e)
  | .noValidSegments _ s e => (s, e)

/-- `_iter_candidate_segments` for one chunk: a `segments` value that is
not a Python `Sequence` raises immediately; a string value is a sequence
of characters none of which is a mapping, so it yields nothing and
raises at the end; a list yields its valid candidates and raises when
none is valid. -/
def candidatesOfChunk (chunk : ChunkTranscriptionResult) :
    Except MergeError (List CandidateSegment) :=
  match chunk.response.get? "segments" with
  | some (.arr raws) =>
    let cands := raws.filterMap (candidateOfRaw chunk)
    if cands.isEmpty then
      .error (.noValidSegments chunk.asset_id chunk.start_ms chunk.end_ms)
    else .ok cands
  | some (.str _) =>
    .error (.noValidSegments chunk.asset_id chunk.start_ms chunk.end_ms)
  | _ => .error (.missingSegments chunk.asset_id chunk.start_ms chunk.end_ms)

/-- The clamp/drop step of the merge loop body for one candidate: trim
the text, clamp the window into the chunk, drop degenerate results.
Returns the segment fields still lacking a global order. -/
def acceptCandidate (chunk : ChunkTranscriptionResult)
    (globalLang : Option String) (c : CandidateSegment) :
    Option CandidateSegment :=
  let text := pyStrip c.text
  if text = "" then none
  else
    let startMs := max chunk.start_ms c.start_ms
    let endMs := min chunk.end_ms c.end_ms
    if endMs ≤ startMs then none
    else
      some { text := text
             start_ms := startMs
             end_ms := endMs
             language := pyOrStr c.language (pyOrStr chunk.language globalLang)
             speaker_label := c.speaker_label
             extra := c.extra }

/-- Materialize an accepted candidate as a `TranscriptSegment` with its
global order. -/
def mkSegment (jobId : String) (chunk : ChunkTranscriptionResult)
    (order : ℕ) (c : CandidateSegment) : TranscriptSegment :=
  { segment_id := ""
    job_id := jobId
    order := order
    start_ms := c.start_ms
    end_ms := c.end_ms
    text := c.text
    language := c.language
    speaker_label := c.speaker_label
    source_asset_id := some chunk.asset_id
    extra := c.extra }

/-- The `if chunk.language and not global_language` update of the global
language inside the merge loop. -/
def updateGlobalLang (g : Option String) (chunk : ChunkTranscriptionResult) :
    Option String :=
  if optTruthy chunk.language && !optTruthy g then chunk.language else g

/-- The chunk loop of `merge_chunk_transcriptions`, threading the global
language and the monotonically increasing order counter. -/
def mergeLoop (jobId : String) :
    List ChunkTranscriptionResult → Option String → ℕ →
    Except MergeError (List TranscriptSegment)
  | [], _, _ => .ok []
  | chunk :: rest, globalLang, order =>
    let globalLang' := updateGlobalLang globalLang chunk
    match candidatesOfChunk chunk with
    | .error e => .error e
    | .ok cands =>
      let accepted := cands.filterMap (acceptCandidate chunk globalLang')
      let numbered := accepted.enum.map (fun p => mkSegment jobId chunk (order + p.1) p.2)
      match mergeLoop jobId rest globalLang' (order + accepted.length) with
      | .error e => .error e
      | .ok restSegs => .ok (numbered ++ restSegs)

/-- The strict sort key of `merge_chunk_transcriptions`: lexicographic
`(start_ms, asset_id)` compared with Python `<`. -/
def chunkSortLT (a b : ChunkTranscriptionResult) : Bool :=
  if a.start_ms < b.start_ms then true
  else if b.start_ms < a.start_ms then false
  else strLT a.asset_id b.asset_id

/-- `sorted(chunk_results, key=...)` (Python's stable sort). -/
def sortChunkResults (l : List ChunkTranscriptionResult) :
    List ChunkTranscriptionResult :=
  pySorted chunkSortLT l

/-- The language backfill pass at the end of
`merge_chunk_transcriptions` (lines 122-135). -/
def backfillLanguage (segs : List TranscriptSegment)
    (globalLang : Option String) : List TranscriptSegment :=
  if segs.isEmpty then segs
  else
    let g :=
      if !optTruthy globalLang then
        match segs.find? (fun s => optTruthy s.language) with
        | some s => s.language
        | none => globalLang
      else globalLang
    if optTruthy g then
      segs.map (fun s => if !optTruthy s.language then { s with language := g } else s)
    else segs

/-- `merge_chunk_transcriptions`. -/
def mergeChunkTranscriptions (jobId : String)
    (chunkResults : List ChunkTranscriptionResult) :
    Except MergeError (List TranscriptSegment) :=
  if chunkResults.isEmpty then .ok []
  else
    let ordered := sortChunkResults chunkResults
    match mergeLoop jobId ordered none 0 with
    | .error e => .error e
    | .ok merged =>
      let globalLang := ordered.foldl updateGlobalLang none
      .ok (backfillLanguage merged globalLang)

/-! ## Job state reader (`routers/jobs.py`) -/

/-- Read-only view of a job directory: the file names directly under it
and the file names under its `audio_chunks/` subdirectory. -/
structure JobDirView where
  files : List String
  audioChunkFiles : List String

/-- `_has_file`. -/
def hasFile (dir : JobDirView) (name : String) : Bool :=
  dir.files.contains name

/-- `_has_source_video`: globs `*.mov`, `*.mp4`, `*.mkv`, `*.webm` in the
job directory. -/
def hasSourceVideo (dir : JobDirView) : Bool :=
  dir.files.any (fun n =>
    strEndsWith n ".mov" || strEndsWith n ".mp4" || strEndsWith n ".mkv" ||
      strEndsWith n ".webm")

/-- `JobStatus` from `routers/jobs.py`. -/
inductive JobStatus where
  | pending
  | processing
  | completed
  | failed
  deriving DecidableEq, Repr

/-- `_detect_stage`: highest artifact wins.  Note the chunk probe globs
`audio_chunks/*.wav` — only `.wav` chunk files are recognized. -/
def detectStage (dir : JobDirView) : ℕ × String :=
  if hasFile dir "summary_items.json" then (4, "summary")
  else if hasFile dir "transcript_segments.json" then (3, "summary")
  else if dir.audioChunkFiles.any (fun n => strEndsWith n ".wav") then (2, "transcription")
  else if hasSourceVideo dir then (1, "chunking")
  else (1, "upload")

/-- `_determine_status` (both tails of the source return `PENDING`). -/
def determineStatus (stageIndex : ℕ) : JobStatus :=
  if 4 ≤ stageIndex then .completed
  else if 2 ≤ stageIndex then .processing
  else .pending

/-- The no-failure-marker branch of `_load_job_summary`: stage detection
plus status derivation. -/
def jobStateNoFailure (dir : JobDirView) : ℕ × String × JobStatus :=
  let (idx, key) := detectStage dir
  (idx, key, determineStatus idx)

/-! ## Failure markers and the broker failure hook
(`job_state.py`, `worker.py`) -/

/-- `JobFailureRecord` from `job_state.py` (`occurred_at` is kept as its
ISO string). -/
structure JobFailureRecordM where
  stage : String
  message : String
  occurred_at : String
  details : List (String × JValue)

/-- `_JOB_FUNC_TO_STAGE` lookup with the `upload` default, applied to the
short function name (`func_name.rsplit(".", 1)[-1]`, empty for a falsy
`func_name`). -/
def inferStageFromJob (funcName : String) : String :=
  let short : String := ⟨((funcName.data.splitOn '.').getLast?).getD []⟩
  if short = "process_uploaded_video" then "upload"
  else if short = "transcribe_audio_for_job" then "transcription"
  else if short = "summarize_job" then "summary"
  else if short = "summarize_transcript_for_job" then "summary"
  else "upload"

/-- Environment of one `_on_job_failure` invocation. -/
structure FailureHookInput where
  hasKwargsJobId : Bool
  jobDirExists : Bool
  existing : Option JobFailureRecordM
  funcName : String
  errorMessage : String
  errorType : String
  tracebackLines : List String
  rqJobId : String
  occurredAt : String

/-- `_on_job_failure` from `worker.py`: the marker it writes, if any.
When kwargs are missing, the directory is absent, or a failure marker
already exists, the hook only logs and returns without writing. -/
def onJobFailure (inp : FailureHookInput) : Option JobFailureRecordM :=
  if !inp.hasKwargsJobId then none
  else if !inp.jobDirExists then none
  else
    match inp.existing with
    | some _ => none
    | none =>
      some { stage := inferStageFromJob inp.funcName
             message := inp.errorMessage
             occurred_at := inp.occurredAt
             details := [("error_type", .str inp.errorType),
                         ("traceback", .arr (inp.tracebackLines.map .str)),
                         ("rq_job_id", .str inp.rqJobId)] }

/-- The `job_failed.json` content after the hook runs: an existing marker
is left untouched, otherwise whatever the hook wrote (possibly nothing). -/
def failureMarkerAfterHook (inp : FailureHookInput) : Option JobFailureRecordM :=
  match inp.existing with
  | some r => some r
  | none => onJobFailure inp

/-! ## JSON artifact writers
(`media/assets.py`, `transcription/segments.py`, `summarization/storage.py`,
`job_state.py`) -/

/-- Lowercase hexadecimal digit. -/
def hexDigitLower (n : ℕ) : Char :=
  if n < 10 then Char.ofNat ('0'.toNat + n)
  else Char.ofNat ('a'.toNat + (n - 10))

/-- A `\uXXXX` escape for a code unit below 0x10000. -/
def uEscape (n : ℕ) : String :=
  String.mk ['\\', 'u', hexDigitLower (n / 4096 % 16), hexDigitLower (n / 256 % 16),
             hexDigitLower (n / 16 % 16), hexDigitLower (n % 16)]

/-- How Python's `json.dumps` emits one character inside a string
literal.  With `ensure_ascii=True` (the default) every character above
0x7E is escaped (astral characters as surrogate pairs); with
`ensure_ascii=False` only the quote, backslash, and control characters
are escaped. -/
def pyJsonEscapeChar (ensureAscii : Bool) (c : Char) : String :=
  if c = '"' then "\\\""
  else if c = '\\' then "\\\\"
  else if c = '\n' then "\\n"
  else if c = '\r' then "\\r"
  else if c = '\t' then "\\t"
  else if c = (Char.ofNat 8) then "\\b"
  else if c = (Char.ofNat 12) then "\\f"
  else if c.toNat < 0x20 then uEscape c.toNat
  else if ensureAscii && decide (0x7e < c.toNat) then
    if c.toNat < 0x10000 then uEscape c.toNat
    else
      let v := c.toNat - 0x10000
      uEscape (0xd800 + v / 0x400) ++ uEscape (0xdc00 + v % 0x400)
  else String.singleton c

/-- The string-literal encoder of `json.dumps` for a given
`ensure_ascii` setting. -/
def pyJsonStringLiteral (ensureAscii : Bool) (s : String) : String :=
  "\"" ++ String.join (s.data.map (pyJsonEscapeChar ensureAscii)) ++ "\""

/-- The keyword arguments a call site passes to `json.dumps`. -/
structure JsonDumpArgs where
  ensureAscii : Bool
  indent : ℕ

/-- The JSON artifact files written by the system. -/
inductive ArtifactFile where
  | mediaAssets
  | transcriptSegments
  | summaryItems
  | actionItems
  | summaryQuality
  | jobFailed
  deriving DecidableEq, Repr

/-- The `json.dumps` arguments at each artifact write site:
`dump_media_assets` passes `json.dumps(content, indent=2)` and therefore
keeps Python's `ensure_ascii=True` default; every other writer passes
`ensure_ascii=False, indent=2`. -/
def artifactDumpArgs : ArtifactFile → JsonDumpArgs
  | .mediaAssets => { ensureAscii := true, indent := 2 }
  | .transcriptSegments => { ensureAscii := false, indent := 2 }
  | .summaryItems => { ensureAscii := false, indent := 2 }
  | .actionItems => { ensureAscii := false, indent := 2 }
  | .summaryQuality => { ensureAscii := false, indent := 2 }
  | .jobFailed => { ensureAscii := false, indent := 2 }

/-- The text encoding each artifact writer passes to
`Path.write_text` — all six pass `encoding="utf-8"`. -/
def artifactWriteEncoding : ArtifactFile → String := fun _ => "utf-8"

/-- How a string field of the given artifact file is emitted into the
file content. -/
def artifactStringLiteral (f : ArtifactFile) (s : String) : String :=
  pyJsonStringLiteral (artifactDumpArgs f).ensureAscii s

/-! ## The transcribe stage task (`tasks/transcribe.py`) -/

/-- Observable side effects of `transcribe_audio_for_job`, in program
order. -/
inductive TaskEvent where
  | clearFailure
  | dumpTranscript (segmentCount : ℕ)
  | markFailed (stage : String)
  | enqueueSummarize (jobId : String) (jobDirectory : String)
  deriving DecidableEq, Repr

/-- Modelled from the spec: `enqueue_summary_job` is imported by
`tasks/transcribe.py` from `meetingai_backend.jobs` but its definition is
not present under `src/`; per the spec's queue protocol the summarize
work item carries the kwargs `job_id` and `job_directory`. -/
def enqueueSummaryJobEvent (jobId jobDirectory : String) : TaskEvent :=
  .enqueueSummarize jobId jobDirectory

/-- Errors with which `transcribe_audio_for_job` re-raises. -/
inductive TaskError where
  | jobDirMissing
  | configError
  | noChunks
  | transcription (e : TranscriptionFailure)
  | merge (e : MergeError)
  | enqueueFailed

/-- `_filter_audio_chunk_assets`: keep `audio_chunk` kind, sort by
`order` (Python's stable sort). -/
def filterAudioChunkAssets (assets : List MediaAssetM) : List MediaAssetM :=
  pySorted (fun a b => decide (a.order < b.order))
    (assets.filter (fun a => a.kind = "audio_chunk"))

/-- Environment of one `transcribe_audio_for_job` run: which failure
points fire.  `chunkOutcome` is the result of `transcribe_audio_chunks`
on the filtered chunk assets (network-dependent); `enqueueOk` is whether
`enqueue_summary_job` succeeds. -/
structure TranscribeEnv where
  jobDirExists : Bool
  apiKeyPresent : Bool
  manifest : List MediaAssetM
  chunkOutcome : Except TranscriptionFailure (List ChunkTranscriptionResult)
  enqueueOk : Bool

/-- `transcribe_audio_for_job`: the ordered side-effect trace and the
exception it re-raises, if any. -/
def transcribeAudioForJob (jobId jobDirectory : String) (env : TranscribeEnv) :
    List TaskEvent × Option TaskError :=
  if !env.jobDirExists then
    ([.markFailed "transcription"], some .jobDirMissing)
  else
    let trace := [TaskEvent.clearFailure]
    if !env.apiKeyPresent then
      (trace ++ [.markFailed "transcription"], some .configError)
    else
      let chunkAssets := filterAudioChunkAssets env.manifest
      if chunkAssets.isEmpty then
        (trace ++ [.markFailed "transcription"], some .noChunks)
      else
        match env.chunkOutcome with
        | .error e => (trace ++ [.markFailed "transcription"], some (.transcription e))
        | .ok chunkResults =>
          match mergeChunkTranscriptions jobId chunkResults with
          | .error e => (trace ++ [.markFailed "transcription"], some (.merge e))
          | .ok segments =>
            let trace := trace ++ [TaskEvent.dumpTranscript segments.length]
            if env.enqueueOk then
              (trace ++ [enqueueSummaryJobEvent jobId jobDirectory], none)
            else
              (trace ++ [.markFailed "transcription"], some .enqueueFailed)

/-- Job-directory artifact state affected by the transcribe task. -/
structure FsState where
  hasTranscript : Bool
  failureStage : Option String

/-- Effect of one task event on the artifact state. -/
def applyEvent (fs : FsState) : TaskEvent → FsState
  | .clearFailure => { fs with failureStage := none }
  | .dumpTranscript _ => { fs with hasTranscript := true }
  | .markFailed stage => { fs with failureStage := some stage }
  | .enqueueSummarize _ _ => fs

/-- Replay a trace of task events over an artifact state. -/
def runEvents (fs : FsState) (events : List TaskEvent) : FsState :=
  events.foldl applyEvent fs

/-! ## Concrete scenarios referenced by the theorems -/

/-- A job directory as the media pipeline leaves it after chunking: the
source upload, the audio master, the manifest, and one MP3 chunk
produced by `split_audio_into_chunks`; no transcript, summary, or
failure marker. -/
def pipelineChunkedJobDir : JobDirView :=
  { files := ["meeting.mp4", "meeting_audio.mp3", "media_assets.json"]
    audioChunkFiles := [chunkFileName "meeting_audio" 0] }

/-- Retry configuration of the boundary-behavior scenario:
`max_attempts=4`, `base=1`, `cap=10`, no rate limit. -/
def retryScenarioConfig : TranscriptionConfig :=
  { maxAttempts := 4
    retryBackoffSeconds := 1
    maxRetryBackoffSeconds := some 10
    requestsPerMinute := none }

/-- The successful fourth attempt's payload. -/
def retryScenarioPayload : JValue :=
  .obj [("text", .str "done"), ("language", .str "en")]

/-- Attempt outcomes of the retry scenario: three 429 responses carrying
`Retry-After: 2`, then success. -/
def retryScenarioOutcomes : ℕ → AttemptOutcome := fun n =>
  if n < 4 then .httpStatusError (some 429) (some "2")
  else .success retryScenarioPayload

/-- The chunk asset transcribed in the retry scenario. -/
def retryScenarioAsset : MediaAssetM :=
  { asset_id := "chunk-asset-0", job_id := "job-1", kind := "audio_chunk"
    path := chunkFileName "meeting_audio" 0, order := 0
    duration_ms := 1000, start_ms := 0, end_ms := 1000
    sample_rate := some 16000, channels := some 1, bit_depth := none
    parent_asset_id := none, extra := [] }

/-- The retry scenario run.  The HTTP-date oracle and the monotonic
clock are irrelevant here: the header is numeric and no rate limit is
configured. -/
def retryScenarioRun :
    Except TranscriptionFailure (ChunkTranscriptionResult × List ℚ) :=
  transcribeSingleChunk retryScenarioAsset retryScenarioConfig none
    (fun _ => none) retryScenarioOutcomes (fun _ => 0)

/-- A failure marker written by the transcribe task itself (legacy shape
with empty `details`). -/
def existingTranscriptionMarker : JobFailureRecordM :=
  { stage := "transcription"
    message := "original error"
    occurred_at := "2024-01-01T00:00:00+00:00"
    details := [] }

/-- A broker failure-hook invocation for a job whose directory already
holds `existingTranscriptionMarker`. -/
def workerHookScenario : FailureHookInput :=
  { hasKwargsJobId := true
    jobDirExists := true
    existing := some existingTranscriptionMarker
    funcName := "meetingai_backend.tasks.transcribe.transcribe_audio_for_job"
    errorMessage := "worker-level error"
    errorType := "builtins.RuntimeError"
    tracebackLines := ["Traceback (most recent call last):", "RuntimeError: worker-level error"]
    rqJobId := "rq-789"
    occurredAt := "2024-01-01T00:00:01+00:00" }

/-- Summary sections returned by the model in the clamping scenario. -/
def clampScenarioSections : JValue :=
  .arr [.obj [("summary", .str "Intro"), ("start_ms", .num (-5000)), ("end_ms", .num 60000)],
        .obj [("summary", .str "Middle"), ("start_ms", .num 60000), ("end_ms", .num 200000)],
        .obj [("summary", .str "Tail"), ("start_ms", .num 200000), ("end_ms", .num 300000)]]

/-- Summary sections for the order-partition witness. -/
def orderScenarioSections : JValue :=
  .arr [.obj [("summary", .str "Section one"), ("start_ms", .num 0), ("end_ms", .num 1000)]]

/-- Action items for the order-partition witness. -/
def orderScenarioItems : JValue :=
  .arr [.obj [("description", .str "Follow up")]]

/-- Chain predicate over a chunk-asset list produced by `splitLoop`:
starting at absolute millisecond `start` and order index `idx`, each
asset starts where told, carries the running order, ends at
`start + duration`, and hands its `end_ms` to the next asset. -/
inductive ChunkChain : ℤ → ℕ → List MediaAssetM → Prop
  | nil (start : ℤ) (idx : ℕ) : ChunkChain start idx []
  | cons {start : ℤ} {idx : ℕ} {asset : MediaAssetM} {rest : List MediaAssetM} :
      asset.start_ms = start → asset.order = (idx : ℤ) →
      asset.end_ms = start + asset.duration_ms →
      ChunkChain asset.end_ms (idx + 1) rest →
      ChunkChain start idx (asset :: rest)

/-- The `uuid4` supply used in the split scenario. -/
def splitScenarioIds : ℕ → String := fun n => "chunk-id-" ++ toString n

/-- The chunk manifest entries produced by the split scenario
(`d = 1` second, probed duration 2 seconds). -/
def splitScenarioChunks : List MediaAssetM :=
  [{ asset_id := "chunk-id-0", job_id := "job-w", kind := "audio_chunk",
     path := chunkFileName "meeting_audio" 0, order := 0,
     duration_ms := 1000, start_ms := 0, end_ms := 1000,
     sample_rate := some 16000, channels := some 1, bit_depth := none,
     parent_asset_id := none, extra := [] },
   { asset_id := "chunk-id-1", job_id := "job-w", kind := "audio_chunk",
     path := chunkFileName "meeting_audio" 1, order := 1,
     duration_ms := 1000, start_ms := 1000, end_ms := 2000,
     sample_rate := some 16000, channels := some 1, bit_depth := none,
     parent_asset_id := none, extra := [] }]

/-- A well-formed chunk transcription response with one valid segment. -/
def witnessResponse : JValue :=
  .obj [("text", .str "hello world"), ("language", .str "en"),
        ("segments", .arr [.obj [("start", .num 0), ("end", .num 1),
                                 ("text", .str "hello world")]])]

/-- A chunk result carrying `witnessResponse` over window [0, 1000]. -/
def witnessChunk : ChunkTranscriptionResult :=
  { asset_id := "asset-a", text := "hello world", start_ms := 0, end_ms := 1000,
    duration_ms := 1000, language := some "en", response := witnessResponse }

/-- The transcript segment the assembler produces from `witnessChunk`. -/
def witnessSegment : TranscriptSegment :=
  { segment_id := "", job_id := "job-1", order := 0, start_ms := 0, end_ms := 1000,
    text := "hello world", language := some "en", speaker_label := none,
    source_asset_id := some "asset-a", extra := [] }

/-- A chunk result whose response has no `segments` array. -/
def witnessBadChunk : ChunkTranscriptionResult :=
  { asset_id := "asset-b", text := "whole text", start_ms := 1000, end_ms := 2000,
    duration_ms := 1000, language := some "en",
    response := .obj [("text", .str "whole text")] }

/-- Transcribe-task environment whose transcription succeeds with
`witnessChunk`; `enq` controls whether the summarize enqueue succeeds. -/
def transcribeOkEnv (enq : Bool) : TranscribeEnv :=
  { jobDirExists := true, apiKeyPresent := true,
    manifest := [retryScenarioAsset],
    chunkOutcome := .ok [witnessChunk], enqueueOk := enq }

/-- Transcribe-task environment whose transcription returns the
malformed `witnessBadChunk`. -/
def transcribeBadEnv : TranscribeEnv :=
  { jobDirExists := true, apiKeyPresent := true,
    manifest := [retryScenarioAsset],
    chunkOutcome := .ok [witnessBadChunk], enqueueOk := true }

/-! # Theorems -/

/-- C1: the media pipeline emits only `.mp3` chunk files
(`split_audio_into_chunks` names every chunk `*_chunk_NNNN.mp3`), but
`_detect_stage` probes `audio_chunks/*.wav`; a job directory holding a
pipeline-produced chunk, with no failure marker, no summary and no
transcript, therefore reports `stage_index = 1` and status PENDING
instead of the claimed `stage_index = 2` and PROCESSING. -/
theorem detectStage_ignores_pipeline_mp3_chunks :
    strEndsWith (chunkFileName "meeting_audio" 0) ".mp3" = true ∧
    strEndsWith (chunkFileName "meeting_audio" 0) ".wav" = false ∧
    hasFile pipelineChunkedJobDir "job_failed.json" = false ∧
    hasFile pipelineChunkedJobDir "summary_items.json" = false ∧
    hasFile pipelineChunkedJobDir "transcript_segments.json" = false ∧
    pipelineChunkedJobDir.audioChunkFiles ≠ [] ∧
    jobStateNoFailure pipelineChunkedJobDir = (1, "chunking", JobStatus.pending) :=
  ⟨rfl, rfl, rfl, rfl, rfl, by decide, rfl⟩

/-- C4 counterexample: `dump_media_assets` calls
`json.dumps(content, indent=2)` without `ensure_ascii=False`, so a
non-ASCII string field of `media_assets.json` is written with `\uXXXX`
escapes, unlike the transcript writer. -/
theorem mediaAssets_escape_counterexample :
    artifactStringLiteral .mediaAssets "会議" = "\"\\u4f1a\\u8b70\"" ∧
    artifactStringLiteral .transcriptSegments "会議" = "\"会議\"" ∧
    ("\"\\u4f1a\\u8b70\"" : String) ≠ "\"会議\"" :=
  ⟨rfl, rfl, by decide⟩

/-- C4 (amended): every JSON artifact writer uses UTF-8 and two-space
indentation, and every one except `media_assets.json` leaves non-ASCII
unescaped; `dump_media_assets` keeps Python's `ensure_ascii=True`
default and escapes non-ASCII. -/
theorem artifact_writer_configuration (f : ArtifactFile) :
    (artifactDumpArgs f).indent = 2 ∧ artifactWriteEncoding f = "utf-8" ∧
    ((artifactDumpArgs f).ensureAscii = false ↔ f ≠ ArtifactFile.mediaAssets) := by
  cases f <;> simp [artifactDumpArgs, artifactWriteEncoding]

/-- C4 amended-theorem witness at the transcript writer. -/
theorem artifact_writer_configuration_witness :
    (artifactDumpArgs .transcriptSegments).indent = 2 ∧
    artifactWriteEncoding .transcriptSegments = "utf-8" ∧
    ((artifactDumpArgs .transcriptSegments).ensureAscii = false ↔
      ArtifactFile.transcriptSegments ≠ ArtifactFile.mediaAssets) :=
  artifact_writer_configuration ArtifactFile.transcriptSegments

/-- C5: when `job_failed.json` already exists, `_on_job_failure` only
logs and returns: the marker's stage and message are preserved, but no
traceback details are appended (the marker's `details` stay empty),
contradicting the claimed append behavior (and the repository's own
test `test_existing_failure_record_preserves_stage_and_adds_details`). -/
theorem failureHook_leaves_existing_marker_without_details :
    onJobFailure workerHookScenario = none ∧
    failureMarkerAfterHook workerHookScenario = some existingTranscriptionMarker ∧
    existingTranscriptionMarker.stage = "transcription" ∧
    existingTranscriptionMarker.message = "original error" ∧
    existingTranscriptionMarker.details = [] :=
  ⟨rfl, rfl, rfl, rfl, rfl⟩

/-- C9: with the transcript spanning [0, 120000], model sections at
[-5000, 60000], [60000, 200000] and [200000, 300000] yield exactly two
summary items clamped to [0, 60000] and [60000, 120000] with orders 0
and 1; the fully out-of-range third section is dropped. -/
theorem summary_clamping_scenario :
    parseSummarySections clampScenarioSections "job-1" 0 120000 =
      [{ summary_id := "", job_id := "job-1", order := 0, segment_start_ms := 0,
         segment_end_ms := 60000, summary_text := "Intro", heading := none,
         priority := none, highlights := [] },
       { summary_id := "", job_id := "job-1", order := 1, segment_start_ms := 60000,
         segment_end_ms := 120000, summary_text := "Middle", heading := none,
         priority := none, highlights := [] }] := rfl

theorem parseDecimal_strip_two : parseDecimal (pyStrip "2") = some 2 := by
  rw [show parseDecimal (pyStrip "2") = some ((2 : ℕ) : ℚ) from rfl]
  norm_num

theorem parseRetryAfterSeconds_two (dd : String → Option ℚ) :
    parseRetryAfterSeconds dd (some "2") = some 2 := by
  simp only [parseRetryAfterSeconds, parseDecimal_strip_two]
  norm_num

theorem retryDelay_attempt_one (dd : String → Option ℚ) :
    selectRetryDelay retryScenarioConfig dd 1 (some (some "2")) = 2 := by
  simp only [selectRetryDelay, parseRetryAfterSeconds_two, retryScenarioConfig]
  norm_num

theorem retryDelay_attempt_two (dd : String → Option ℚ) :
    selectRetryDelay retryScenarioConfig dd 2 (some (some "2")) = 2 := by
  simp only [selectRetryDelay, parseRetryAfterSeconds_two, retryScenarioConfig]
  norm_num

theorem retryDelay_attempt_three (dd : String → Option ℚ) :
    selectRetryDelay retryScenarioConfig dd 3 (some (some "2")) = 4 := by
  simp only [selectRetryDelay, parseRetryAfterSeconds_two, retryScenarioConfig]
  norm_num

theorem retryScenario_loop :
    runRetryLoop retryScenarioConfig (fun _ => none) retryScenarioOutcomes (fun _ => 0) =
      .ok ⟨retryScenarioPayload, 4, [2, 2, 4]⟩ := by
  simp only [runRetryLoop,
    show retryScenarioConfig.maxAttempts = 4 from rfl,
    show rateLimiterFromConfig retryScenarioConfig = ⟨0, none⟩ from rfl]
  simp only [attemptLoop, rateLimiterAcquire, retryScenarioOutcomes]
  simp [retriableStatus, show retryScenarioConfig.maxAttempts = 4 from rfl,
    retryDelay_attempt_one, retryDelay_attempt_two, retryDelay_attempt_three]

theorem retryScenarioRun_eval :
    retryScenarioRun =
      .ok ({ asset_id := "chunk-asset-0", text := "done", start_ms := 0,
             end_ms := 1000, duration_ms := 1000, language := some "en",
             response := retryScenarioPayload }, [2, 2, 4]) := by
  unfold retryScenarioRun transcribeSingleChunk
  rw [retryScenario_loop]
  rfl

/-- C2 counterexample: in the claimed scenario (max_attempts=4, base=1,
cap=10, three 429s with Retry-After: 2, success on the 4th attempt) the
observed sleep durations are [2, 2, 4], not the claimed [2, 2, 2]: the
third retry's backoff base 1·2² = 4 exceeds the Retry-After value and
wins the `max`. -/
theorem retry_sleeps_are_not_all_two :
    retryScenarioRun.toOption.map Prod.snd = some [2, 2, 4] ∧
    (some [2, 2, 4] : Option (List ℚ)) ≠ some [2, 2, 2] := by
  refine ⟨by rw [retryScenarioRun_eval]; rfl, ?_⟩
  norm_num

/-- C2 (amended): under max_attempts=4, retry_backoff_seconds=1 and
max_retry_backoff_seconds=10, three 429 responses carrying
Retry-After: 2 followed by a success produce exactly three sleeps of
durations [2, 2, 4] (delay for attempt k is max(base·2^(k-1),
Retry-After) capped at 10), and the call returns the fourth attempt's
result. -/
theorem retry_scenario_sleeps_and_result :
    runRetryLoop retryScenarioConfig (fun _ => none) retryScenarioOutcomes (fun _ => 0) =
      .ok ⟨retryScenarioPayload, 4, [2, 2, 4]⟩ ∧
    retryScenarioOutcomes 4 = .success retryScenarioPayload ∧
    retryScenarioRun =
      .ok ({ asset_id := "chunk-asset-0", text := "done", start_ms := 0,
             end_ms := 1000, duration_ms := 1000, language := some "en",
             response := retryScenarioPayload }, [2, 2, 4]) ∧
    ([2, 2, 4] : List ℚ).length = 3 :=
  ⟨retryScenario_loop, rfl, retryScenarioRun_eval, rfl⟩

theorem summarySectionStep_shape (jobId : String) (tStart tEnd : ℤ)
    (parsed : List SummaryItem) (entry : JValue) :
    summarySectionStep jobId tStart tEnd parsed entry = parsed ∨
    ∃ item : SummaryItem, item.order = parsed.length ∧
      summarySectionStep jobId tStart tEnd parsed entry = parsed ++ [item] := by
  unfold summarySectionStep
  dsimp only
  repeat' split
  all_goals first
    | exact Or.inl rfl
    | exact Or.inr ⟨_, rfl, rfl⟩

theorem actionItemStep_shape (jobId : String) (startingOrder : ℕ) (tStart tEnd : ℤ)
    (parsed : List ActionItem) (entry : JValue) :
    actionItemStep jobId startingOrder tStart tEnd parsed entry = parsed ∨
    ∃ item : ActionItem, item.order = startingOrder + parsed.length ∧
      actionItemStep jobId startingOrder tStart tEnd parsed entry = parsed ++ [item] := by
  unfold actionItemStep
  dsimp only
  repeat' split
  all_goals first
    | exact Or.inl rfl
    | exact Or.inr ⟨_, rfl, rfl⟩

theorem foldl_order_invariant {α β : Type} (step : List α → β → List α)
    (ord : α → ℕ) (base : ℕ)
    (hstep : ∀ acc e, step acc e = acc ∨
      ∃ x, ord x = base + acc.length ∧ step acc e = acc ++ [x]) :
    ∀ (entries : List β) (acc : List α),
      (∀ i (h : i < acc.length), ord (acc.get ⟨i, h⟩) = base + i) →
      ∀ i (h : i < (entries.foldl step acc).length),
        ord ((entries.foldl step acc).get ⟨i, h⟩) = base + i := by
  intro entries
  induction entries with
  | nil => intro acc hacc i h; exact hacc i h
  | cons e es ih =>
    intro acc hacc
    simp only [List.foldl_cons]
    apply ih
    rcases hstep acc e with heq | ⟨x, hx, heq⟩
    · rw [heq]; exact hacc
    · rw [heq]
      intro i h
      rcases Nat.lt_or_ge i acc.length with hi | hi
      · have : (acc ++ [x]).get ⟨i, h⟩ = acc.get ⟨i, hi⟩ := by
          simp [List.get_eq_getElem, List.getElem_append_left hi]
        rw [this]; exact hacc i hi
      · have hlen : i < acc.length + 1 := by
          simpa using h
        have hieq : i = acc.length := Nat.le_antisymm (Nat.lt_succ_iff.mp hlen) hi
        subst hieq
        have : (acc ++ [x]).get ⟨acc.length, h⟩ = x := by
          simp [List.get_eq_getElem]
        rw [this, hx]

theorem parseSummarySections_orders (sections : JValue) (jobId : String)
    (tStart tEnd : ℤ) :
    ∀ i (h : i < (parseSummarySections sections jobId tStart tEnd).length),
      ((parseSummarySections sections jobId tStart tEnd).get ⟨i, h⟩).order = i := by
  cases sections
  case arr entries =>
    intro i h
    have := foldl_order_invariant (summarySectionStep jobId tStart tEnd)
      (fun item => item.order) 0
      (fun acc e => by simpa using summarySectionStep_shape jobId tStart tEnd acc e)
      entries [] (by intro i hi; simp at hi)
    simpa using this i (by simpa [parseSummarySections] using h)
  all_goals intro i h; simp [parseSummarySections] at h

theorem parseActionItems_orders (items : JValue) (jobId : String)
    (startingOrder : ℕ) (tStart tEnd : ℤ) :
    ∀ j (h : j < (parseActionItems items jobId startingOrder tStart tEnd).length),
      ((parseActionItems items jobId startingOrder tStart tEnd).get ⟨j, h⟩).order =
        startingOrder + j := by
  cases items
  case arr entries =>
    intro j h
    have := foldl_order_invariant (actionItemStep jobId startingOrder tStart tEnd)
      (fun item => item.order) startingOrder
      (actionItemStep_shape jobId startingOrder tStart tEnd)
      entries [] (by intro i hi; simp at hi)
    simpa using this j (by simpa [parseActionItems] using h)
  all_goals intro j h; simp [parseActionItems] at h

/-- C10: in the summary bundle, summary item orders are 0..s−1 and
action item orders are s..s+a−1 (action parsing starts at the count of
accepted summary items), so no order value appears in both lists and
action orders are never 0 once any summary item was accepted. -/
theorem summary_action_order_partition (jobId : String) (tStart tEnd : ℤ)
    (sectionsRaw itemsRaw : JValue) :
    (∀ i (h : i < (parseSummaryBundle jobId tStart tEnd sectionsRaw itemsRaw).1.length),
        ((parseSummaryBundle jobId tStart tEnd sectionsRaw itemsRaw).1.get ⟨i, h⟩).order = i) ∧
    (∀ j (h : j < (parseSummaryBundle jobId tStart tEnd sectionsRaw itemsRaw).2.length),
        ((parseSummaryBundle jobId tStart tEnd sectionsRaw itemsRaw).2.get ⟨j, h⟩).order =
          (parseSummaryBundle jobId tStart tEnd sectionsRaw itemsRaw).1.length + j) ∧
    (∀ s ∈ (parseSummaryBundle jobId tStart tEnd sectionsRaw itemsRaw).1,
      ∀ a ∈ (parseSummaryBundle jobId tStart tEnd sectionsRaw itemsRaw).2,
        s.order ≠ a.order) ∧
    ((parseSummaryBundle jobId tStart tEnd sectionsRaw itemsRaw).1 ≠ [] →
      ∀ a ∈ (parseSummaryBundle jobId tStart tEnd sectionsRaw itemsRaw).2, a.order ≠ 0) := by
  have hS := parseSummarySections_orders sectionsRaw jobId tStart tEnd
  have hA := parseActionItems_orders itemsRaw jobId
    (parseSummarySections sectionsRaw jobId tStart tEnd).length tStart tEnd
  have hb : parseSummaryBundle jobId tStart tEnd sectionsRaw itemsRaw =
      (parseSummarySections sectionsRaw jobId tStart tEnd,
       parseActionItems itemsRaw jobId
         (parseSummarySections sectionsRaw jobId tStart tEnd).length tStart tEnd) := rfl
  rw [hb]
  dsimp only
  refine ⟨hS, hA, ?_, ?_⟩
  · intro s hs a ha
    obtain ⟨⟨i, hi⟩, rfl⟩ := List.mem_iff_get.mp hs
    obtain ⟨⟨j, hj⟩, rfl⟩ := List.mem_iff_get.mp ha
    rw [hS i hi, hA j hj]
    omega
  · intro hne a ha
    obtain ⟨⟨j, hj⟩, rfl⟩ := List.mem_iff_get.mp ha
    rw [hA j hj]
    have : 0 < (parseSummarySections sectionsRaw jobId tStart tEnd).length :=
      List.length_pos.mpr hne
    omega


/-- C10 witness: one accepted summary item and one accepted action item
give action order 1 = summary count + 0. -/
theorem summary_action_order_partition_witness :
    (((parseSummaryBundle "job-1" 0 1000 orderScenarioSections orderScenarioItems).2.get? 0).map
      (fun a => a.order)) =
      some ((parseSummaryBundle "job-1" 0 1000 orderScenarioSections orderScenarioItems).1.length + 0) := by
  have hlen : 0 < (parseSummaryBundle "job-1" 0 1000 orderScenarioSections orderScenarioItems).2.length := by
    decide
  have h := (summary_action_order_partition "job-1" 0 1000 orderScenarioSections orderScenarioItems).2.1 0 hlen
  rw [List.get?_eq_get hlen]
  exact congrArg some h

theorem pyRound_intCast (n : ℤ) : pyRound (n : ℚ) = n := by
  unfold pyRound
  rw [Int.floor_intCast]
  norm_num

theorem chunkChain_get_order {s : ℤ} {k : ℕ} {l : List MediaAssetM}
    (hc : ChunkChain s k l) :
    ∀ i (h : i < l.length), ((l.get ⟨i, h⟩).order) = ((k + i : ℕ) : ℤ) := by
  induction hc with
  | nil => intro i h; simp at h
  | cons h1 h2 h3 hrest ih =>
    rename_i start idx asset rest
    intro i h
    cases i with
    | zero => simpa using h2
    | succ n =>
      have hn : n < rest.length := by simpa using h
      have := ih n hn
      simp only [List.get_eq_getElem, List.getElem_cons_succ] at this ⊢
      rw [this]
      congr 1
      omega

theorem chunkChain_head_start {s : ℤ} {k : ℕ} {l : List MediaAssetM}
    (hc : ChunkChain s k l) (h0 : l ≠ []) : (l.head h0).start_ms = s := by
  cases hc with
  | nil => exact absurd rfl h0
  | cons h1 h2 h3 hrest => simpa using h1

theorem chunkChain_contiguous {s : ℤ} {k : ℕ} {l : List MediaAssetM}
    (hc : ChunkChain s k l) :
    ∀ i (h : i + 1 < l.length),
      (l.get ⟨i + 1, h⟩).start_ms = (l.get ⟨i, Nat.lt_of_succ_lt h⟩).end_ms := by
  induction hc with
  | nil => intro i h; simp at h
  | cons h1 h2 h3 hrest ih =>
    intro i h
    cases i with
    | zero =>
      rename_i asset rest
      have hr : rest ≠ [] := by
        intro he
        subst he
        simp at h
      have := chunkChain_head_start hrest hr
      cases rest with
      | nil => exact absurd rfl hr
      | cons b bs =>
        simp only [List.head_cons] at this
        simp only [List.get_eq_getElem, List.getElem_cons_succ, List.getElem_cons_zero]
        exact this
    | succ n =>
      have := ih n (by simpa using h)
      simpa using this

theorem chunkChain_last_end {s : ℤ} {k : ℕ} {l : List MediaAssetM}
    (hc : ChunkChain s k l) (h0 : l ≠ []) :
    (l.getLast h0).end_ms = s + (l.map (·.duration_ms)).sum := by
  induction hc with
  | nil => exact absurd rfl h0
  | cons h1 h2 h3 hrest ih =>
    rename_i start idx asset rest
    cases rest with
    | nil => simpa using h3
    | cons b bs =>
      have hr : (b :: bs) ≠ [] := by simp
      have := ih hr
      rw [List.getLast_cons hr, this, h3]
      simp [add_assoc]

theorem splitLoop_chain (jobId : String) (ids : ℕ → String) (stem : String)
    (d : ℤ) (total : ℚ) (parentId : Option String) (sr ch : ℤ) :
    ∀ (fuel : ℕ) (pos : ℚ) (idx : ℕ) (acc out : List MediaAssetM),
      pos = (idx : ℚ) * (d : ℚ) →
      splitLoop jobId ids stem d total parentId sr ch fuel pos idx acc = some out →
      ∃ tail, out = acc.reverse ++ tail ∧ ChunkChain (pyRound (pos * 1000)) idx tail := by
  intro fuel
  induction fuel with
  | zero =>
    intro pos idx acc out hpos hout
    simp only [splitLoop] at hout
    split at hout
    · exact absurd hout (by simp)
    · refine ⟨[], ?_, ChunkChain.nil _ _⟩
      rw [List.append_nil]
      exact (Option.some.inj hout).symm
  | succ fuel ih =>
    intro pos idx acc out hpos hout
    simp only [splitLoop] at hout
    by_cases hlt : pos < total
    · rw [if_pos hlt] at hout
      by_cases hle : (d : ℚ) ≤ total - pos
      · rw [min_eq_left hle] at hout
        have hpos' : pos + (d : ℚ) = ((idx + 1 : ℕ) : ℚ) * (d : ℚ) := by
          rw [hpos]; push_cast; ring
        obtain ⟨tail', hdecomp, hchain⟩ := ih (pos + d) (idx + 1) _ out hpos' hout
        refine ⟨{ asset_id := ids idx, job_id := jobId, kind := "audio_chunk",
                  path := chunkFileName stem idx, order := (idx : ℤ),
                  duration_ms := pyRound ((d : ℚ) * 1000),
                  start_ms := pyRound (pos * 1000),
                  end_ms := pyRound (pos * 1000) + pyRound ((d : ℚ) * 1000),
                  sample_rate := some sr, channels := some ch, bit_depth := none,
                  parent_asset_id := parentId, extra := [] } :: tail', ?_, ?_⟩
        · rw [hdecomp, List.reverse_cons, List.append_assoc]
          rfl
        · refine ChunkChain.cons rfl rfl rfl ?_
          have hend : pyRound (pos * 1000) + pyRound ((d : ℚ) * 1000) =
              pyRound ((pos + d) * 1000) := by
            rw [hpos]
            have e1 : ((idx : ℚ)) * (d : ℚ) * 1000 = (((idx : ℤ) * d * 1000 : ℤ) : ℚ) := by
              push_cast; ring
            have e2 : ((d : ℚ)) * 1000 = (((d * 1000 : ℤ)) : ℚ) := by push_cast; ring
            have e3 : ((idx : ℚ) * (d : ℚ) + d) * 1000 =
                ((((idx : ℤ) * d * 1000 + d * 1000 : ℤ)) : ℚ) := by push_cast; ring
            rw [e1, e2, e3, pyRound_intCast, pyRound_intCast, pyRound_intCast]
          exact hend ▸ hchain
      · have hmin : min (d : ℚ) (total - pos) = total - pos :=
          min_eq_right (le_of_lt (not_le.mp hle))
        rw [hmin] at hout
        have hpos' : pos + (total - pos) = total := by ring
        rw [hpos'] at hout
        have hstep : ∀ (acc' : List MediaAssetM),
            splitLoop jobId ids stem d total parentId sr ch fuel total (idx + 1) acc' =
              some acc'.reverse := by
          intro acc'
          cases fuel <;> simp [splitLoop, lt_irrefl]
        rw [hstep] at hout
        refine ⟨[{ asset_id := ids idx, job_id := jobId, kind := "audio_chunk",
                   path := chunkFileName stem idx, order := (idx : ℤ),
                   duration_ms := pyRound ((total - pos) * 1000),
                   start_ms := pyRound (pos * 1000),
                   end_ms := pyRound (pos * 1000) + pyRound ((total - pos) * 1000),
                   sample_rate := some sr, channels := some ch, bit_depth := none,
                   parent_asset_id := parentId, extra := [] }], ?_, ?_⟩
        · rw [← (Option.some.inj hout), List.reverse_cons]
        · exact ChunkChain.cons rfl rfl rfl (ChunkChain.nil _ _)
    · rw [if_neg hlt] at hout
      refine ⟨[], ?_, ChunkChain.nil _ _⟩
      rw [List.append_nil]
      exact (Option.some.inj hout).symm

theorem splitLoop_isSome (jobId : String) (ids : ℕ → String) (stem : String)
    (d : ℤ) (total : ℚ) (parentId : Option String) (sr ch : ℤ) (hd : 0 < d) :
    ∀ (fuel : ℕ) (pos : ℚ) (idx : ℕ) (acc : List MediaAssetM),
      total - pos ≤ (fuel : ℚ) * (d : ℚ) →
      (splitLoop jobId ids stem d total parentId sr ch fuel pos idx acc).isSome := by
  have hdq : (0 : ℚ) < (d : ℚ) := by exact_mod_cast hd
  intro fuel
  induction fuel with
  | zero =>
    intro pos idx acc hle
    have hnlt : ¬ pos < total := by
      intro hlt
      push_cast at hle
      linarith
    simp [splitLoop, hnlt]
  | succ fuel ih =>
    intro pos idx acc hle
    by_cases hlt : pos < total
    · simp only [splitLoop]
      rw [if_pos hlt]
      apply ih
      rcases le_or_lt (d : ℚ) (total - pos) with h | h
      · rw [min_eq_left h]
        push_cast at hle ⊢
        linarith
      · rw [min_eq_right h.le]
        have : (0 : ℚ) ≤ (fuel : ℚ) * (d : ℚ) := by positivity
        linarith
    · simp [splitLoop, hlt]

theorem splitAudioIntoChunks_ok_chain (jobId : String) (ids : ℕ → String)
    (stem : String) (d : ℤ) (total : ℚ) (parentId : Option String) (sr ch : ℤ)
    (chunks : List MediaAssetM)
    (hok : splitAudioIntoChunks jobId ids stem d total parentId sr ch = .ok chunks) :
    ChunkChain 0 0 chunks ∧ chunks ≠ [] := by
  unfold splitAudioIntoChunks at hok
  split_ifs at hok with h1 h2
  dsimp only at hok
  rcases hsl : splitLoop jobId ids stem d total parentId sr ch
      ((⌈total / (d : ℚ)⌉).toNat + 1) 0 0 [] with _ | l
  · rw [hsl] at hok; exact absurd hok (by simp)
  · rw [hsl] at hok
    cases l with
    | nil => exact absurd hok (by simp)
    | cons a l =>
      have heq : chunks = a :: l := by
        have := hok
        simp only at this
        exact (Except.ok.inj this).symm
      obtain ⟨tail, hdecomp, hchain⟩ :=
        splitLoop_chain jobId ids stem d total parentId sr ch _ 0 0 [] (a :: l)
          (by norm_num) hsl
      simp only [List.reverse_nil, List.nil_append] at hdecomp
      have h0 : pyRound ((0 : ℚ) * 1000) = 0 := by
        rw [show ((0 : ℚ) * 1000) = (((0 : ℤ)) : ℚ) by norm_num, pyRound_intCast]
      rw [h0] at hchain
      rw [← hdecomp] at hchain
      rw [heq]
      exact ⟨hchain, by simp⟩

/-- C7: for a successful split with positive chunk duration and probed
duration, the ingest-assembled manifest has chunk orders 0..N−1, first
chunk starting at 0, each chunk starting where the previous ended, the
last chunk ending at the master's `duration_ms`, the master's
`duration_ms` equal to the sum of chunk durations, and every chunk's
`parent_asset_id` equal to the master's `asset_id`. -/
theorem split_manifest_invariants
    (jobId masterId audioPath sourcePath stem : String) (ids : ℕ → String)
    (d : ℤ) (total : ℚ) (sr ch : ℤ) (chunks0 : List MediaAssetM)
    (master : MediaAssetM) (patched : List MediaAssetM)
    (hd : 0 < d) (ht : 0 < total)
    (hok : splitAudioIntoChunks jobId ids stem d total none sr ch = .ok chunks0)
    (hasm : assembleManifest jobId masterId audioPath sourcePath chunks0 = (master, patched)) :
    (∀ i (h : i < patched.length), (patched.get ⟨i, h⟩).order = (i : ℤ)) ∧
    (∀ h0 : patched ≠ [], (patched.head h0).start_ms = 0) ∧
    (∀ i (h : i + 1 < patched.length),
      (patched.get ⟨i + 1, h⟩).start_ms = (patched.get ⟨i, Nat.lt_of_succ_lt h⟩).end_ms) ∧
    (∀ h0 : patched ≠ [], (patched.getLast h0).end_ms = master.duration_ms) ∧
    master.duration_ms = (patched.map (·.duration_ms)).sum ∧
    (∀ c ∈ patched, c.parent_asset_id = some master.asset_id) ∧
    patched ≠ [] := by
  obtain ⟨hchain, hne⟩ :=
    splitAudioIntoChunks_ok_chain jobId ids stem d total none sr ch chunks0 hok
  unfold assembleManifest at hasm
  rw [Prod.mk.injEq] at hasm
  obtain ⟨hm, hp⟩ := hasm
  have hplen : patched.length = chunks0.length := by rw [← hp]; simp
  have hpne : patched ≠ [] := by
    rw [← hp]
    simpa using hne
  have hget : ∀ i (h : i < patched.length),
      ∃ h' : i < chunks0.length,
        (patched.get ⟨i, h⟩).order = (chunks0.get ⟨i, h'⟩).order ∧
        (patched.get ⟨i, h⟩).start_ms = (chunks0.get ⟨i, h'⟩).start_ms ∧
        (patched.get ⟨i, h⟩).end_ms = (chunks0.get ⟨i, h'⟩).end_ms := by
    intro i h
    have h' : i < chunks0.length := hplen ▸ h
    refine ⟨h', ?_, ?_, ?_⟩ <;>
      · subst hp
        simp [List.get_eq_getElem, List.getElem_map]
  refine ⟨?_, ?_, ?_, ?_, ?_, ?_, hpne⟩
  · intro i h
    obtain ⟨h', ho, _, _⟩ := hget i h
    rw [ho, chunkChain_get_order hchain i h']
    simp
  · intro h0
    have hs := chunkChain_head_start hchain hne
    subst hp
    cases chunks0 with
    | nil => exact absurd rfl hne
    | cons a l => simpa using hs
  · intro i h
    obtain ⟨h1', _, hs1, _⟩ := hget (i + 1) h
    obtain ⟨h2', _, _, he2⟩ := hget i (Nat.lt_of_succ_lt h)
    rw [hs1, he2, chunkChain_contiguous hchain i h1']
  · intro h0
    have hl := chunkChain_last_end hchain hne
    have : (patched.getLast h0).end_ms = (chunks0.getLast hne).end_ms := by
      subst hp
      simp [List.getLast_map]
    rw [this, hl, ← hm]
    simp [buildMasterAsset]
  · rw [← hm]
    have hdur : patched.map (·.duration_ms) = chunks0.map (·.duration_ms) := by
      rw [← hp, List.map_map]
      rfl
    rw [hdur]
    simp [buildMasterAsset]
  · intro c hc
    rw [← hp] at hc
    obtain ⟨c0, _, rfl⟩ := List.mem_map.mp hc
    rw [hm]

theorem splitScenario_eval :
    splitAudioIntoChunks "job-w" splitScenarioIds "meeting_audio" 1 2 none 16000 1 =
      .ok splitScenarioChunks := by
  unfold splitScenarioChunks
  have h0 : pyRound ((0 : ℚ) * 1000) = 0 := by
    rw [show ((0 : ℚ) * 1000) = (((0 : ℤ)) : ℚ) by norm_num, pyRound_intCast]
  have h1 : pyRound ((1 : ℚ) * 1000) = 1000 := by
    rw [show ((1 : ℚ) * 1000) = (((1000 : ℤ)) : ℚ) by norm_num, pyRound_intCast]
  have hfuel : ((⌈(2 : ℚ) / ((1 : ℤ) : ℚ)⌉).toNat + 1) = 3 := by
    norm_num
    rfl
  unfold splitAudioIntoChunks
  rw [if_neg (by norm_num), if_neg (by norm_num)]
  dsimp only
  rw [hfuel]
  show (match splitLoop "job-w" splitScenarioIds "meeting_audio" 1 2 none 16000 1 3 0 0 [] with
    | none => Except.error "loop fuel exhausted (unreachable: see splitLoop_some)"
    | some [] => Except.error "audio file contains no audio data; cannot create chunks."
    | some assets => Except.ok assets) = _
  rw [show (3 : ℕ) = 2 + 1 from rfl]
  simp only [splitLoop]
  norm_num [splitScenarioIds, h0, h1, pyRound_intCast]
  have hz : pyRound (0 : ℚ) = 0 := by
    rw [show (0 : ℚ) = (((0 : ℤ)) : ℚ) by norm_num, pyRound_intCast]
  have hk : pyRound (1000 : ℚ) = 1000 := by
    rw [show (1000 : ℚ) = (((1000 : ℤ)) : ℚ) by norm_num, pyRound_intCast]
  simp [hz, hk]
  decide


/-- C7 witness: the two-chunk split scenario (d = 1 s, duration 2 s)
satisfies the manifest invariants. -/
theorem split_manifest_invariants_witness :
    (assembleManifest "job-w" "master-0" "meeting_audio.mp3" "meeting.mp4" splitScenarioChunks).1.duration_ms =
      ((assembleManifest "job-w" "master-0" "meeting_audio.mp3" "meeting.mp4" splitScenarioChunks).2.map
        (·.duration_ms)).sum ∧
    (assembleManifest "job-w" "master-0" "meeting_audio.mp3" "meeting.mp4" splitScenarioChunks).2 ≠ [] := by
  have h := split_manifest_invariants "job-w" "master-0" "meeting_audio.mp3" "meeting.mp4"
    "meeting_audio" splitScenarioIds 1 2 16000 1 splitScenarioChunks
    (assembleManifest "job-w" "master-0" "meeting_audio.mp3" "meeting.mp4" splitScenarioChunks).1
    (assembleManifest "job-w" "master-0" "meeting_audio.mp3" "meeting.mp4" splitScenarioChunks).2
    (by decide) (by norm_num) splitScenario_eval rfl
  exact ⟨h.2.2.2.2.1, h.2.2.2.2.2.2⟩

theorem dropWhile_dropWhile {α : Type} (p : α → Bool) (l : List α) :
    (l.dropWhile p).dropWhile p = l.dropWhile p := by
  induction l with
  | nil => simp
  | cons a l ih =>
    by_cases h : p a
    · simp [List.dropWhile_cons, h, ih]
    · simp [List.dropWhile_cons, h]

theorem head_dropWhile_false {α : Type} (p : α → Bool) :
    ∀ (l : List α) (a : α) (t : List α), l.dropWhile p = a :: t → p a = false := by
  intro l
  induction l with
  | nil => intro a t h; simp at h
  | cons x xs ih =>
    intro a t h
    by_cases hx : p x
    · rw [List.dropWhile_cons, if_pos hx] at h
      exact ih a t h
    · rw [List.dropWhile_cons, if_neg hx] at h
      have hxa : x = a := by injection h
      subst hxa
      exact Bool.eq_false_iff.mpr hx

theorem pyStripList_idem (l : List Char) :
    pyStripList (pyStripList l) = pyStripList l := by
  unfold pyStripList
  set p := pyIsSpace
  set A := l.dropWhile p with hA
  set B := A.reverse.dropWhile p with hB
  have hfix : B.reverse.dropWhile p = B.reverse := by
    rcases hBr : B.reverse with _ | ⟨c, t⟩
    · simp
    · -- B.reverse is a non-empty prefix of A, so its head is A's head,
      -- which does not satisfy p.
      obtain ⟨s, hs⟩ : ∃ s, s ++ B = A.reverse := (List.dropWhile_suffix p)
      have hAeq : A = B.reverse ++ s.reverse := by
        have := congrArg List.reverse hs
        simpa [List.reverse_append] using this.symm
      have hhead : p c = false := by
        apply head_dropWhile_false p l c (t ++ s.reverse)
        rw [← hA] at *
        rw [hAeq, hBr]
        simp
      rw [List.dropWhile_cons, if_neg (by simp [hhead])]
  rw [hfix, List.reverse_reverse, hB, dropWhile_dropWhile]

theorem pyStrip_idem (s : String) : pyStrip (pyStrip s) = pyStrip s := by
  unfold pyStrip
  exact congrArg String.mk (pyStripList_idem s.data)

theorem pySortInsert_mem {α : Type} (lt : α → α → Bool) (x a : α) :
    ∀ (l : List α), a ∈ pySortInsert lt x l ↔ a = x ∨ a ∈ l := by
  intro l
  induction l with
  | nil => simp [pySortInsert]
  | cons y ys ih =>
    by_cases h : lt x y
    · simp [pySortInsert, h]
    · simp [pySortInsert, h, ih]
      tauto

theorem pySorted_mem {α : Type} (lt : α → α → Bool) (a : α) (l : List α) :
    a ∈ pySorted lt l ↔ a ∈ l := by
  unfold pySorted
  suffices h : ∀ (l : List α) (acc : List α),
      a ∈ l.foldl (fun acc x => pySortInsert lt x acc) acc ↔ a ∈ acc ∨ a ∈ l by
    simpa using h l []
  intro l
  induction l with
  | nil => intro acc; simp
  | cons x xs ih =>
    intro acc
    simp only [List.foldl_cons]
    rw [ih]
    rw [pySortInsert_mem]
    simp [List.mem_cons]
    tauto

theorem acceptCandidate_spec (chunk : ChunkTranscriptionResult)
    (g : Option String) (c c' : CandidateSegment)
    (h : acceptCandidate chunk g c = some c') :
    c'.text = pyStrip c.text ∧ pyStrip c.text ≠ "" ∧
    c'.start_ms = max chunk.start_ms c.start_ms ∧
    c'.end_ms = min chunk.end_ms c.end_ms ∧
    c'.start_ms < c'.end_ms := by
  unfold acceptCandidate at h
  dsimp only at h
  split_ifs at h with h1 h2
  obtain rfl := Option.some.inj h
  refine ⟨rfl, h1, rfl, rfl, ?_⟩
  exact lt_of_not_le h2

theorem mergeLoop_ok_spec (jobId : String) :
    ∀ (chunks : List ChunkTranscriptionResult) (g : Option String) (n : ℕ)
      (segs : List TranscriptSegment),
      mergeLoop jobId chunks g n = .ok segs →
      (∀ i (h : i < segs.length), (segs.get ⟨i, h⟩).order = n + i) ∧
      (∀ seg ∈ segs, ∃ chunk ∈ chunks,
        seg.source_asset_id = some chunk.asset_id ∧
        chunk.start_ms ≤ seg.start_ms ∧ seg.start_ms < seg.end_ms ∧
        seg.end_ms ≤ chunk.end_ms ∧ seg.text ≠ "" ∧
        ∃ cands, candidatesOfChunk chunk = .ok cands ∧
          ∃ cand ∈ cands, seg.text = pyStrip cand.text) := by
  intro chunks
  induction chunks with
  | nil =>
    intro g n segs hok
    obtain rfl : ([] : List TranscriptSegment) = segs := Except.ok.inj hok
    exact ⟨by intro i h; simp at h, by intro seg hseg; simp at hseg⟩
  | cons chunk rest ih =>
    intro g n segs hok
    unfold mergeLoop at hok
    rcases hcand : candidatesOfChunk chunk with e | cands
    · rw [hcand] at hok; exact absurd hok (by simp)
    · rw [hcand] at hok
      dsimp only at hok
      rcases hrest : mergeLoop jobId rest (updateGlobalLang g chunk)
          (n + (cands.filterMap (acceptCandidate chunk (updateGlobalLang g chunk))).length)
          with e | restSegs
      · rw [hrest] at hok; exact absurd hok (by simp)
      · rw [hrest] at hok
        obtain rfl := (Except.ok.inj hok)
        set g' := updateGlobalLang g chunk with hg'
        set accepted := cands.filterMap (acceptCandidate chunk g') with hacc
        obtain ⟨ihA, ihB⟩ := ih g' (n + accepted.length) restSegs hrest
        constructor
        · intro i h
          by_cases hi : i < accepted.length
          · have hlt : i < (accepted.enum.map
                (fun p => mkSegment jobId chunk (n + p.1) p.2)).length := by
              simpa using hi
            rw [List.get_eq_getElem, List.getElem_append_left hlt]
            simp [List.getElem_map, List.getElem_enum, mkSegment]
          · have hlen : (accepted.enum.map
                (fun p => mkSegment jobId chunk (n + p.1) p.2)).length = accepted.length := by
              simp
            have hge : accepted.length ≤ i := Nat.le_of_not_lt hi
            have hlt2 : i - accepted.length < restSegs.length := by
              have h' := h
              simp only [List.length_append, hlen] at h'
              omega
            have h2 := ihA (i - accepted.length) hlt2
            rw [List.get_eq_getElem] at h2 ⊢
            rw [List.getElem_append_right (by omega :
              (accepted.enum.map (fun p => mkSegment jobId chunk (n + p.1) p.2)).length ≤ i)]
            simp only [hlen]
            rw [h2]
            omega
        · intro seg hseg
          rcases List.mem_append.mp hseg with hmem | hmem
          · obtain ⟨p, hp, rfl⟩ := List.mem_map.mp hmem
            have hpmem : p.2 ∈ accepted := by
              have hge := List.mem_enum_iff_getElem?.mp hp
              exact List.getElem?_mem hge
            obtain ⟨cand, hcmem, hacc2⟩ := List.mem_filterMap.mp (hacc ▸ hpmem)
            obtain ⟨ht, htne, hs, he, hlt⟩ := acceptCandidate_spec chunk g' cand p.2 hacc2
            refine ⟨chunk, List.mem_cons_self _ _, rfl, ?_, ?_, ?_, ?_, cands, hcand, cand, hcmem, ?_⟩
            · simp only [mkSegment, hs]
              exact le_max_left _ _
            · simpa [mkSegment] using hlt
            · simp only [mkSegment, he]
              exact min_le_left _ _
            · simpa [mkSegment, ht] using htne
            · simpa [mkSegment] using ht
          · obtain ⟨c2, hc2, hrest2⟩ := ihB seg hmem
            exact ⟨c2, List.mem_cons_of_mem _ hc2, hrest2⟩

theorem backfillLanguage_shape (segs : List TranscriptSegment) (g : Option String) :
    ∃ f : TranscriptSegment → TranscriptSegment,
      backfillLanguage segs g = segs.map f ∧
      ∀ s, (f s).order = s.order ∧ (f s).start_ms = s.start_ms ∧
        (f s).end_ms = s.end_ms ∧ (f s).text = s.text ∧
        (f s).source_asset_id = s.source_asset_id := by
  unfold backfillLanguage
  by_cases h1 : segs.isEmpty
  · rw [if_pos h1]
    exact ⟨id, by simp, by intro s; simp⟩
  · rw [if_neg h1]
    dsimp only
    by_cases h2 : optTruthy (if !optTruthy g then
        (match segs.find? (fun s => optTruthy s.language) with
          | some s => s.language
          | none => g)
      else g)
    · rw [if_pos h2]
      refine ⟨_, rfl, ?_⟩
      intro s
      split <;> simp
    · rw [if_neg h2]
      exact ⟨id, by simp, by intro s; simp⟩

theorem merge_ok_spec (jobId : String)
    (chunkResults : List ChunkTranscriptionResult) (segs : List TranscriptSegment)
    (hok : mergeChunkTranscriptions jobId chunkResults = .ok segs) :
    (∀ i (h : i < segs.length), (segs.get ⟨i, h⟩).order = i) ∧
    (∀ seg ∈ segs, seg.text ≠ "" ∧ pyStrip seg.text = seg.text ∧
      ∃ chunk ∈ chunkResults, seg.source_asset_id = some chunk.asset_id ∧
        chunk.start_ms ≤ seg.start_ms ∧ seg.start_ms < seg.end_ms ∧
        seg.end_ms ≤ chunk.end_ms ∧
        ∃ cands, candidatesOfChunk chunk = Except.ok cands ∧
          ∃ cand ∈ cands, seg.text = pyStrip cand.text) := by
  unfold mergeChunkTranscriptions at hok
  split_ifs at hok with hemp
  · obtain rfl := Except.ok.inj hok
    exact ⟨by intro i h; simp at h, by intro seg hseg; simp at hseg⟩
  · dsimp only at hok
    rcases hml : mergeLoop jobId (sortChunkResults chunkResults) none 0 with e | merged
    · rw [hml] at hok; exact absurd hok (by simp)
    · rw [hml] at hok
      dsimp only at hok
      obtain rfl := Except.ok.inj hok
      obtain ⟨hordA, hmemB⟩ := mergeLoop_ok_spec jobId (sortChunkResults chunkResults)
        none 0 merged hml
      obtain ⟨f, hfeq, hf⟩ := backfillLanguage_shape merged
        ((sortChunkResults chunkResults).foldl updateGlobalLang none)
      rw [hfeq]
      constructor
      · intro i h
        have hlt : i < merged.length := by simpa using h
        rw [List.get_eq_getElem, List.getElem_map]
        rw [(hf _).1]
        have := hordA i hlt
        rw [List.get_eq_getElem] at this
        simpa using this
      · intro seg hseg
        obtain ⟨s0, hs0, rfl⟩ := List.mem_map.mp hseg
        obtain ⟨chunk, hchunk, hsrc, hb1, hb2, hb3, hne0, cands, hcands, cand, hcmem, htext⟩ :=
          hmemB s0 hs0
        obtain ⟨ho, hs, he, ht, hsa⟩ := hf s0
        have hchunk' : chunk ∈ chunkResults := by
          have := hchunk
          unfold sortChunkResults at this
          exact (pySorted_mem chunkSortLT chunk chunkResults).mp this
        refine ⟨?_, ?_, chunk, hchunk', ?_, ?_, ?_, ?_, cands, hcands, cand, hcmem, ?_⟩
        · rw [ht]; exact hne0
        · rw [ht, htext, pyStrip_idem]
        · rw [hsa]; exact hsrc
        · rw [hs]; exact hb1
        · rw [hs, he]; exact hb2
        · rw [he]; exact hb3
        · rw [ht]; exact htext

/-- C6: for accepted (successfully merged) chunk results, transcript
segment orders form the dense 0-based sequence of list positions, every
segment's text is non-empty after stripping, every segment lies strictly
inside its source chunk's window, and under a valid manifest (chunk
windows inside [0, D]) every segment lies inside [0, D]. -/
theorem merge_segment_invariants (jobId : String)
    (chunkResults : List ChunkTranscriptionResult)
    (segs : List TranscriptSegment)
    (hne : chunkResults ≠ [])
    (hok : mergeChunkTranscriptions jobId chunkResults = .ok segs) :
    (∀ i (h : i < segs.length), (segs.get ⟨i, h⟩).order = i) ∧
    (∀ seg ∈ segs, seg.text ≠ "" ∧ pyStrip seg.text = seg.text ∧
      ∃ chunk ∈ chunkResults, seg.source_asset_id = some chunk.asset_id ∧
        chunk.start_ms ≤ seg.start_ms ∧ seg.start_ms < seg.end_ms ∧
        seg.end_ms ≤ chunk.end_ms) ∧
    (∀ D : ℤ, (∀ chunk ∈ chunkResults, 0 ≤ chunk.start_ms ∧ chunk.end_ms ≤ D) →
      ∀ seg ∈ segs, 0 ≤ seg.start_ms ∧ seg.end_ms ≤ D) := by
  obtain ⟨hord, hmem⟩ := merge_ok_spec jobId chunkResults segs hok
  refine ⟨hord, ?_, ?_⟩
  · intro seg hseg
    obtain ⟨ht1, ht2, chunk, hchunk, hsrc, hb1, hb2, hb3, _⟩ := hmem seg hseg
    exact ⟨ht1, ht2, chunk, hchunk, hsrc, hb1, hb2, hb3⟩
  · intro D hD seg hseg
    obtain ⟨_, _, chunk, hchunk, _, hb1, hb2, hb3, _⟩ := hmem seg hseg
    obtain ⟨hD1, hD2⟩ := hD chunk hchunk
    exact ⟨le_trans hD1 hb1, le_trans hb3 hD2⟩

theorem candidatesOfChunk_error_names (c : ChunkTranscriptionResult) (e : MergeError)
    (h : candidatesOfChunk c = .error e) :
    e.assetId = c.asset_id ∧ e.window = (c.start_ms, c.end_ms) := by
  unfold candidatesOfChunk at h
  rcases hg : c.response.get? "segments" with _ | v
  · rw [hg] at h
    obtain rfl := (Except.error.inj h).symm
    exact ⟨rfl, rfl⟩
  · rcases v with _ | b | q | s | xs | fields <;> rw [hg] at h
    · obtain rfl := (Except.error.inj h).symm; exact ⟨rfl, rfl⟩
    · obtain rfl := (Except.error.inj h).symm; exact ⟨rfl, rfl⟩
    · obtain rfl := (Except.error.inj h).symm; exact ⟨rfl, rfl⟩
    · obtain rfl := (Except.error.inj h).symm; exact ⟨rfl, rfl⟩
    · dsimp only at h
      split_ifs at h with hemp
      obtain rfl := (Except.error.inj h).symm; exact ⟨rfl, rfl⟩
    · obtain rfl := (Except.error.inj h).symm; exact ⟨rfl, rfl⟩

theorem mergeLoop_error_of_bad (jobId : String) :
    ∀ (chunks : List ChunkTranscriptionResult) (g : Option String) (n : ℕ),
      (∃ c ∈ chunks, ∃ e0, candidatesOfChunk c = .error e0) →
      ∃ e, mergeLoop jobId chunks g n = .error e ∧
        ∃ c ∈ chunks, candidatesOfChunk c = .error e := by
  intro chunks
  induction chunks with
  | nil => intro g n hex; simp at hex
  | cons chunk rest ih =>
    intro g n hex
    rcases hc : candidatesOfChunk chunk with e | cands
    · refine ⟨e, ?_, chunk, List.mem_cons_self _ _, hc⟩
      unfold mergeLoop
      rw [hc]
    · obtain ⟨c, hcm, e0, he0⟩ := hex
      rcases List.mem_cons.mp hcm with rfl | hcr
      · rw [hc] at he0; exact absurd he0 (by simp)
      · obtain ⟨e, hml, c', hc', he'⟩ := ih (updateGlobalLang g chunk)
          (n + (cands.filterMap (acceptCandidate chunk (updateGlobalLang g chunk))).length)
          ⟨c, hcr, e0, he0⟩
        refine ⟨e, ?_, c', List.mem_cons_of_mem _ hc', he'⟩
        unfold mergeLoop
        rw [hc]
        dsimp only
        rw [hml]

theorem merge_error_of_bad (jobId : String)
    (chunkResults : List ChunkTranscriptionResult)
    (hbad : ∃ c ∈ chunkResults, ∃ e0, candidatesOfChunk c = .error e0) :
    ∃ e, mergeChunkTranscriptions jobId chunkResults = .error e ∧
      ∃ c' ∈ chunkResults, candidatesOfChunk c' = .error e ∧
        e.assetId = c'.asset_id ∧ e.window = (c'.start_ms, c'.end_ms) := by
  obtain ⟨c, hcm, e0, he0⟩ := hbad
  have hne : ¬ chunkResults.isEmpty = true := by
    cases chunkResults
    · simp at hcm
    · simp
  have hbad' : ∃ c ∈ sortChunkResults chunkResults, ∃ e0, candidatesOfChunk c = .error e0 := by
    refine ⟨c, ?_, e0, he0⟩
    unfold sortChunkResults
    exact (pySorted_mem chunkSortLT c chunkResults).mpr hcm
  obtain ⟨e, hml, c', hc', he'⟩ :=
    mergeLoop_error_of_bad jobId (sortChunkResults chunkResults) none 0 hbad'
  have hc'' : c' ∈ chunkResults := by
    unfold sortChunkResults at hc'
    exact (pySorted_mem chunkSortLT c' chunkResults).mp hc'
  obtain ⟨hn1, hn2⟩ := candidatesOfChunk_error_names c' e he'
  refine ⟨e, ?_, c', hc'', he', hn1, hn2⟩
  unfold mergeChunkTranscriptions
  rw [if_neg hne]
  dsimp only
  rw [hml]

theorem witnessMerge_eval :
    mergeChunkTranscriptions "job-1" [witnessChunk] = .ok [witnessSegment] := by
  have h0 : secondsToMilliseconds 0 = 0 := by
    unfold secondsToMilliseconds
    rw [show ((0 : ℚ) * 1000) = (((0 : ℤ)) : ℚ) by norm_num, pyRound_intCast]
  have h1 : secondsToMilliseconds 1 = 1000 := by
    unfold secondsToMilliseconds
    rw [show ((1 : ℚ) * 1000) = (((1000 : ℤ)) : ℚ) by norm_num, pyRound_intCast]
  simp [mergeChunkTranscriptions, sortChunkResults, pySorted, pySortInsert, mergeLoop,
    candidatesOfChunk, candidateOfRaw, parseSeconds, h0, h1, acceptCandidate, mkSegment,
    updateGlobalLang, backfillLanguage, optTruthy, pyOrStr, witnessChunk, witnessResponse,
    witnessSegment, JValue.get?, extractSegmentExtra, segmentKnownKeys]
  have hps : pyStrip "hello world" = "hello world" := rfl
  simp [List.filterMap_cons, acceptCandidate, hps, mkSegment]
  intro h
  rfl

/-- C8: a chunk response without a `segments` array, or with no valid
candidate entry (mapping with string `text`, parseable `start`/`end`),
makes the merge fail with an error naming some offending chunk's asset
and window; in that case the transcribe task performs no transcript
dump, so `transcript_segments.json` is not written; and the assembler
never falls back to whole-chunk text: whenever merging succeeds, every
segment's text is a stripped candidate text from some chunk's
`segments` array. -/
theorem malformed_transcription_fails (jobId jobDirectory : String)
    (env : TranscribeEnv) (chunkResults : List ChunkTranscriptionResult)
    (c : ChunkTranscriptionResult) (e0 : MergeError)
    (hc : c ∈ chunkResults) (he : candidatesOfChunk c = .error e0)
    (henv : env.chunkOutcome = .ok chunkResults) :
    (∃ e : MergeError, mergeChunkTranscriptions jobId chunkResults = .error e ∧
      ∃ c' ∈ chunkResults, candidatesOfChunk c' = .error e ∧
        e.assetId = c'.asset_id ∧ e.window = (c'.start_ms, c'.end_ms)) ∧
    (∀ n : ℕ, TaskEvent.dumpTranscript n ∉ (transcribeAudioForJob jobId jobDirectory env).1) ∧
    (runEvents ⟨false, none⟩ (transcribeAudioForJob jobId jobDirectory env).1).hasTranscript
      = false ∧
    (∀ (results : List ChunkTranscriptionResult) (segs : List TranscriptSegment),
      mergeChunkTranscriptions jobId results = .ok segs →
      ∀ seg ∈ segs, ∃ c' ∈ results, ∃ cands, candidatesOfChunk c' = .ok cands ∧
        ∃ cand ∈ cands, seg.text = pyStrip cand.text) := by
  have hmerr := merge_error_of_bad jobId chunkResults ⟨c, hc, e0, he⟩
  obtain ⟨e, hmerge, hrest⟩ := hmerr
  refine ⟨⟨e, hmerge, hrest⟩, ?_, ?_, ?_⟩
  · intro n
    obtain ⟨dirE, keyE, manifest, outcome, enq⟩ := env
    simp only at henv
    subst henv
    unfold transcribeAudioForJob
    cases dirE
    · simp
    · cases keyE
      · simp
      · by_cases hempf : (filterAudioChunkAssets manifest).isEmpty
        · simp [hempf]
        · simp [hempf, hmerge]
  · obtain ⟨dirE, keyE, manifest, outcome, enq⟩ := env
    simp only at henv
    subst henv
    unfold transcribeAudioForJob
    cases dirE
    · simp [runEvents, applyEvent]
    · cases keyE
      · simp [runEvents, applyEvent]
      · by_cases hempf : (filterAudioChunkAssets manifest).isEmpty
        · simp [hempf, runEvents, applyEvent]
        · simp [hempf, hmerge, runEvents, applyEvent]
  · intro results segs hok seg hseg
    obtain ⟨_, _, chunk, hchunk, _, _, _, _, hcands⟩ :=
      (merge_ok_spec jobId results segs hok).2 seg hseg
    exact ⟨chunk, hchunk, hcands⟩

/-- C8 witness: a chunk whose response lacks `segments` makes the merge
fail naming the chunk's asset and [1000, 2000] window, and the task run
leaves no transcript. -/
theorem malformed_transcription_fails_witness :
    mergeChunkTranscriptions "job-1" [witnessBadChunk] =
      .error (MergeError.missingSegments "asset-b" 1000 2000) ∧
    (runEvents ⟨false, none⟩
      (transcribeAudioForJob "job-1" "/jobs/job-1" transcribeBadEnv).1).hasTranscript = false := by
  have h := malformed_transcription_fails "job-1" "/jobs/job-1" transcribeBadEnv
    [witnessBadChunk] witnessBadChunk (MergeError.missingSegments "asset-b" 1000 2000)
    (List.mem_singleton.mpr rfl) rfl rfl
  exact ⟨rfl, h.2.2.1⟩

/-- C3: when transcription and merging succeed, the transcribe task dumps
`transcript_segments.json` and only afterwards enqueues the summarize
task with the job id and job directory; if the enqueue fails, the task
marks the job failed with stage `transcription` and re-raises, with the
transcript file still present. -/
theorem transcribe_enqueue_after_persist (jobId jobDirectory : String)
    (env : TranscribeEnv) (chunkResults : List ChunkTranscriptionResult)
    (segs : List TranscriptSegment)
    (hdir : env.jobDirExists = true) (hkey : env.apiKeyPresent = true)
    (hchunks : filterAudioChunkAssets env.manifest ≠ [])
    (houtcome : env.chunkOutcome = .ok chunkResults)
    (hmerge : mergeChunkTranscriptions jobId chunkResults = .ok segs) :
    (env.enqueueOk = true →
      (transcribeAudioForJob jobId jobDirectory env).1 =
        [TaskEvent.clearFailure, TaskEvent.dumpTranscript segs.length,
         TaskEvent.enqueueSummarize jobId jobDirectory] ∧
      (transcribeAudioForJob jobId jobDirectory env).2 = none) ∧
    (env.enqueueOk = false →
      (transcribeAudioForJob jobId jobDirectory env).1 =
        [TaskEvent.clearFailure, TaskEvent.dumpTranscript segs.length,
         TaskEvent.markFailed "transcription"] ∧
      (transcribeAudioForJob jobId jobDirectory env).2 = some TaskError.enqueueFailed ∧
      (runEvents ⟨false, none⟩
        (transcribeAudioForJob jobId jobDirectory env).1).hasTranscript = true ∧
      (runEvents ⟨false, none⟩
        (transcribeAudioForJob jobId jobDirectory env).1).failureStage =
          some "transcription") := by
  have hempf : (filterAudioChunkAssets env.manifest).isEmpty = false := by
    rcases hfe : filterAudioChunkAssets env.manifest with _ | ⟨a, l⟩
    · exact absurd hfe hchunks
    · simp
  constructor
  · intro henq
    unfold transcribeAudioForJob
    rw [hdir, hkey, houtcome, henq]
    simp [hempf, hmerge, enqueueSummaryJobEvent]
  · intro henq
    unfold transcribeAudioForJob
    rw [hdir, hkey, houtcome, henq]
    simp [hempf, hmerge, runEvents, applyEvent]

/-- C3 witness: the enqueue-failure path of the concrete scenario. -/
theorem transcribe_enqueue_after_persist_witness :
    (transcribeAudioForJob "job-1" "/jobs/job-1" (transcribeOkEnv false)).1 =
      [TaskEvent.clearFailure, TaskEvent.dumpTranscript 1,
       TaskEvent.markFailed "transcription"] ∧
    (transcribeAudioForJob "job-1" "/jobs/job-1" (transcribeOkEnv false)).2 =
      some TaskError.enqueueFailed ∧
    (runEvents ⟨false, none⟩
      (transcribeAudioForJob "job-1" "/jobs/job-1" (transcribeOkEnv false)).1).hasTranscript
      = true := by
  have h := transcribe_enqueue_after_persist "job-1" "/jobs/job-1" (transcribeOkEnv false)
    [witnessChunk] [witnessSegment] rfl rfl
    (by rw [show filterAudioChunkAssets (transcribeOkEnv false).manifest =
          [retryScenarioAsset] from rfl]
        exact List.cons_ne_nil _ _)
    rfl witnessMerge_eval
  obtain ⟨ha, hb, hcT, -⟩ := h.2 rfl
  exact ⟨ha, hb, hcT⟩

/-- C6 witness: the single-chunk scenario satisfies the segment
invariants with D = 1000. -/
theorem merge_segment_invariants_witness :
    0 ≤ witnessSegment.start_ms ∧ witnessSegment.end_ms ≤ 1000 := by
  have h := merge_segment_invariants "job-1" [witnessChunk] [witnessSegment]
    (List.cons_ne_nil _ _) witnessMerge_eval
  have hw : ∀ chunk ∈ [witnessChunk], 0 ≤ chunk.start_ms ∧ chunk.end_ms ≤ 1000 := by
    intro chunk hchunk
    rw [List.mem_singleton.mp hchunk]
    exact ⟨le_refl 0, le_refl 1000⟩
  exact h.2.2 1000 hw witnessSegment (List.mem_singleton.mpr rfl)
